import Mathlib

/-!
kor: the namespace activity scanner of pkg/kor/namespaces.go and the endpoints
check of pkg/kor/services.go.

A shallow embedding of the resource-kind resolver (getGVR), the two ignore
policies, the per-kind emptiness test, the discovery-driven namespace scanner,
processNamespaces, GetUnusedNamespaces and processNamespaceServices, followed by
the properties the specification states about them. The filter chain of
pkg/filters, whose file is not among the sources, is modelled from the
specification (ApplyFilters) or taken as a parameter (the six predicates); so
are the reporting functions GetUnusedNamespaces calls and the filter run and
the exception configuration processNamespaceServices uses.

Modelling conventions
* a Go string is a Lean String; a Go slice is a List (a nil slice is the
  empty list);
* a Go error value is an Option Error, none standing for nil;
* a Go pointer result is an Option, none standing for the nil pointer;
* during one scan the cluster is a snapshot: the discovery call has one result,
  and a list call is a function of the group-version-resource and the
  namespace; from one scan of processNamespaces to the next the discovery
  answer may change (Clientset.DiscoveryDuring);
* the context argument carries no data the scanner reads and is left out;
  a cancelled context shows as failing list calls;
* a function that writes through its pointer argument or prints returns a
  record with the value written and the lines printed next to its Go results.
-/

namespace Kor

/-! ## Data model -/

/-- A non-nil Go error, identified by its message. -/
structure Error where
  msg : String
deriving DecidableEq, Repr

/-- The triple schema.GroupVersionResource. -/
structure GroupVersionResource where
  Group : String
  Version : String
  Resource : String
deriving DecidableEq, Repr

/-- The pair types.NamespacedName. -/
structure NamespacedName where
  Namespace : String
  Name : String
deriving DecidableEq, Repr

/-- The struct GenericResource of namespaces.go. -/
structure GenericResource where
  NamespacedName : Kor.NamespacedName
  GVR : GroupVersionResource
deriving DecidableEq, Repr

/-- An unstructured object, seen through the two accessors the scanner calls. -/
structure Unstructured where
  GetNamespace : String
  GetName : String
deriving DecidableEq, Repr

/-- One resource kind of a discovery answer (metav1.APIResource). -/
structure APIResource where
  Name : String
  Namespaced : Bool
  Kind : String
deriving DecidableEq, Repr

/-- The kinds of one group-version of a discovery answer (metav1.APIResourceList). -/
structure APIResourceList where
  GroupVersion : String
  APIResources : List APIResource
deriving DecidableEq, Repr

/-- The fields of filters.Options that pkg/kor and the filter tests use. -/
structure Options where
  IgnoreResourceTypes : List String := []
  IncludeNamespaces : List String := []
  ExcludeNamespaces : List String := []
  IncludeLabels : String := ""
  ExcludeLabels : List String := []
  NewerThan : String := ""
  OlderThan : String := ""
deriving DecidableEq, Repr

/-- The discovery client: the one call the scanner makes on it. -/
structure DiscoveryInterface where
  ServerPreferredNamespacedResources : Except Error (List APIResourceList)

/-- A namespace object (corev1.Namespace) as the filters and processNamespaces
read it: name, labels, and creation time in seconds. -/
structure Namespace where
  Name : String
  Labels : List (String × String) := []
  CreationTimestamp : Int := 0
deriving DecidableEq, Repr

/-- A subset of an endpoints object (corev1.EndpointSubset); processNamespaceServices
reads only how many there are. -/
structure EndpointSubset where
  Addresses : List String := []
deriving DecidableEq, Repr

/-- An endpoints object (corev1.Endpoints) as processNamespaceServices reads it:
name, labels and subsets. -/
structure Endpoints where
  Name : String
  Labels : List (String × String) := []
  Subsets : List EndpointSubset := []
deriving DecidableEq, Repr

/-- The typed clientset, seen through Discovery(), through
CoreV1().Namespaces().List(ctx, ListOptions) as a function of the label selector,
and through CoreV1().Endpoints(namespace).List(ctx, ListOptions) as a function of
the namespace and the label selector. The cluster may change while
processNamespaces runs: DiscoveryDuring name is the discovery client as it
answers during the scan of the namespace of that name; unless said otherwise it
is Discovery throughout. -/
structure Clientset where
  Discovery : DiscoveryInterface
  ListNamespaces : String → Except Error (List Namespace) := fun _ => .ok []
  DiscoveryDuring : String → DiscoveryInterface := fun _ => Discovery
  ListEndpoints : String → String → Except Error (List Endpoints) := fun _ _ => .ok []

/-- The clientset as it answers while processNamespaces scans the namespace of the
given name. -/
def Clientset.duringScan (clientset : Clientset) (name : String) : Clientset :=
  { clientset with Discovery := clientset.DiscoveryDuring name }

/-- The struct ResourceInfo of package kor; the positional literal
ResourceInfo{namespace.Name, "unused namespace"} of processNamespaces gives its
two string fields. -/
structure ResourceInfo where
  Name : String
  Reason : String
deriving DecidableEq, Repr

/-- The fields of common.Opts that GetUnusedNamespaces reads. -/
structure Opts where
  DeleteFlag : Bool := false
  NoInteractive : Bool := false
  GroupBy : String := ""
deriving DecidableEq, Repr

/-- The dynamic client: Resource(gvr).Namespace(ns).List(ctx, ListOptions) as a
function of the resource triple and the namespace. -/
structure DynamicClient where
  ListResource : GroupVersionResource → String → Except Error (List Unstructured)

/-- One list call issued on the dynamic client. -/
structure ListCall where
  gvr : GroupVersionResource
  ns : String
deriving DecidableEq, Repr

/-! ## strings.Split with a one-character separator -/

/-- The pieces of a character list between the occurrences of sep: one piece more
than there are separators, empty pieces included. -/
def splitChars (sep : Char) : List Char → List (List Char)
  | [] => [[]]
  | c :: cs =>
    if c = sep then [] :: splitChars sep cs
    else
      match splitChars sep cs with
      | [] => [[c]]
      | piece :: rest => (c :: piece) :: rest

/-- Go strings.Split(s, sep) for a separator of one ASCII character, the only
form namespaces.go calls (sep = "/"). -/
def stringsSplit (s : String) (sep : Char) : List String :=
  (splitChars sep s.data).map String.mk

/-! ## namespaces.go -/

/-- Source getGVR: the switch on len(splitGV) is the match on the shape of the
list; the result is the Go pair (pointer, error). -/
def getGVR (name : String) (splitGV : List String) :
    Option GroupVersionResource × Option Error :=
  match splitGV with
  | [v] => (some { Group := "", Version := v, Resource := name }, none)
  | [g, v] => (some { Group := g, Version := v, Resource := name }, none)
  | _ => (none, some ⟨"gv is wrong length slice: " ++ toString splitGV.length⟩)

/-- Source ignoreResourceType: linear search for an equal string. -/
def ignoreResourceType (resource : String) : List String → Bool
  | [] => false
  | ignoreType :: rest =>
    if resource = ignoreType then true else ignoreResourceType resource rest

/-- Source ignorePredefinedResource: the three hard-wired tests in order. -/
def ignorePredefinedResource (gr : GenericResource) : Bool :=
  if gr.GVR.Resource = "configmaps" ∧ gr.GVR.Version = "v1"
      ∧ gr.NamespacedName.Name = "kube-root-ca.crt" then true
  else if gr.GVR.Resource = "serviceaccounts" ∧ gr.GVR.Version = "v1"
      ∧ gr.NamespacedName.Name = "default" then true
  else if gr.GVR.Resource = "events" then true
  else false

/-- Source isNamespaceNotEmpty: the loop over unstructuredList.Items. -/
def isNamespaceNotEmpty (gvr : GroupVersionResource) (items : List Unstructured)
    (filterOpts : Options) : Bool :=
  match items with
  | [] => false
  | unstructuredObj :: rest =>
    let gr : GenericResource :=
      { GVR := gvr
        NamespacedName :=
          { Namespace := unstructuredObj.GetNamespace, Name := unstructuredObj.GetName } }
    if ignorePredefinedResource gr then isNamespaceNotEmpty gvr rest filterOpts
    else if ignoreResourceType gr.GVR.Resource filterOpts.IgnoreResourceTypes then
      isNamespaceNotEmpty gvr rest filterOpts
    else true

/-- What a run of the scanner leaves behind: the Go result pair and the list
calls it issued, oldest first. -/
structure ScanRun where
  found : Bool
  err : Option Error
  calls : List ListCall
deriving DecidableEq, Repr

/-- The inner loop of isErrorOrNamespaceContainsResources over the kinds of one
group-version. The result none means the loop ran to its end (the outer loop
goes on), some r means a return statement was reached with result r. The
second component is the list calls issued, oldest first. -/
def scanAPIResources (dynamicClient : DynamicClient) (ns : String)
    (filterOpts : Options) (groupVersion : String) :
    List APIResource → Option (Bool × Option Error) × List ListCall
  | [] => (none, [])
  | apiResource :: rest =>
    let gv := stringsSplit groupVersion '/'
    match getGVR apiResource.Name gv with
    | (_, some err) => (some (true, some err), [])
    | (none, none) =>
      -- the dereference of a nil gvr; getGVR never returns this pair (getGVR_ne_nil_nil)
      (some (true, some ⟨"nil pointer dereference"⟩), [])
    | (some gvr, none) =>
      match dynamicClient.ListResource gvr ns with
      | .error _ =>
        let r := scanAPIResources dynamicClient ns filterOpts groupVersion rest
        (r.1, ⟨gvr, ns⟩ :: r.2)
      | .ok unstructuredList =>
        if isNamespaceNotEmpty gvr unstructuredList filterOpts then
          (some (true, none), [⟨gvr, ns⟩])
        else
          let r := scanAPIResources dynamicClient ns filterOpts groupVersion rest
          (r.1, ⟨gvr, ns⟩ :: r.2)

/-- The outer loop of isErrorOrNamespaceContainsResources over the discovery
answer, ending in the final return false, nil. -/
def scanAPIResourceLists (dynamicClient : DynamicClient) (ns : String)
    (filterOpts : Options) : List APIResourceList → (Bool × Option Error) × List ListCall
  | [] => ((false, none), [])
  | apiResourceList :: rest =>
    match scanAPIResources dynamicClient ns filterOpts apiResourceList.GroupVersion
        apiResourceList.APIResources with
    | (some r, calls) => (r, calls)
    | (none, calls) =>
      let r := scanAPIResourceLists dynamicClient ns filterOpts rest
      (r.1, calls ++ r.2)

/-- Source isErrorOrNamespaceContainsResources, with the list calls it issued. -/
def runScan (clientset : Clientset) (dynamicClient : DynamicClient) (ns : String)
    (filterOpts : Options) : ScanRun :=
  match clientset.Discovery.ServerPreferredNamespacedResources with
  | .error err => { found := true, err := some err, calls := [] }
  | .ok apiResourceLists =>
    let r := scanAPIResourceLists dynamicClient ns filterOpts apiResourceLists
    { found := r.1.1, err := r.1.2, calls := r.2 }

/-- Source isErrorOrNamespaceContainsResources: the Go result pair. -/
def isErrorOrNamespaceContainsResources (clientset : Clientset)
    (dynamicClient : DynamicClient) (ns : String) (filterOpts : Options) :
    Bool × Option Error :=
  let r := runScan clientset dynamicClient ns filterOpts
  (r.found, r.err)

/-! ## pkg/filters as processNamespaces uses it -/

/-- The type filters.FilterFunction: a predicate on an object and the options,
true meaning that the object is to be skipped. -/
abbrev FilterFunction (Obj : Type) : Type := Obj → Options → Bool

/-- Modelled from the spec: filters.ApplyFilters, whose file filters.go is not
among the sources. Section 4.1: the predicates are evaluated left to right, the
result is true on the first predicate that returns true, and false if all return
false, the case of zero predicates included. -/
def ApplyFilters {Obj : Type} (object : Obj) (opts : Options) :
    List (FilterFunction Obj) → Bool
  | [] => false
  | f :: funcs => if f object opts then true else ApplyFilters object opts funcs

/-- The six predicates of pkg/filters that processNamespaces chains. Their file is
not among the sources; they are parameters of the model. -/
structure NamespaceFilters where
  SystemNamespaceFilter : FilterFunction Namespace
  ExcludeNamespacesFilter : FilterFunction Namespace
  IncludeNamespacesFilter : FilterFunction Namespace
  KorLabelFilter : FilterFunction Namespace
  LabelFilter : FilterFunction Namespace
  AgeFilter : FilterFunction Namespace

/-- The argument list of the ApplyFilters call of processNamespaces, in its order. -/
def namespaceFilterChain (fs : NamespaceFilters) : List (FilterFunction Namespace) :=
  [ fs.SystemNamespaceFilter, fs.ExcludeNamespacesFilter, fs.IncludeNamespacesFilter,
    fs.KorLabelFilter, fs.LabelFilter, fs.AgeFilter ]

/-! ## namespaces.go: processNamespaces and GetUnusedNamespaces -/

/-- What a run of processNamespaces leaves behind: the Go result pair and the
names of the namespaces on which the scanner was called, oldest first. -/
structure ProcessRun where
  unused : List ResourceInfo
  err : Option Error
  scanned : List String
deriving DecidableEq, Repr

/-- The loop of processNamespaces over namespaces.Items; the second argument is
the slice unusedNamespaces built so far. Each call of the scanner meets the
cluster as it is during that scan. -/
def processNamespacesLoop (fs : NamespaceFilters) (clientset : Clientset)
    (dynamicClient : DynamicClient) (filterOpts : Options) :
    List Namespace → List ResourceInfo → ProcessRun
  | [], unusedNamespaces => { unused := unusedNamespaces, err := none, scanned := [] }
  | nsObject :: rest, unusedNamespaces =>
    if ApplyFilters nsObject filterOpts (namespaceFilterChain fs) then
      processNamespacesLoop fs clientset dynamicClient filterOpts rest unusedNamespaces
    else
      match isErrorOrNamespaceContainsResources (clientset.duringScan nsObject.Name)
          dynamicClient nsObject.Name filterOpts with
      | (_, some err) =>
        { unused := unusedNamespaces, err := some err, scanned := [nsObject.Name] }
      | (resourceFound, none) =>
        let r := processNamespacesLoop fs clientset dynamicClient filterOpts rest
          (if !resourceFound then
            unusedNamespaces ++ [{ Name := nsObject.Name, Reason := "unused namespace" }]
           else unusedNamespaces)
        { unused := r.unused, err := r.err, scanned := nsObject.Name :: r.scanned }

/-- Source processNamespaces. The error of a failed namespace listing is wrapped
as errors.Wrap does: the message, a colon and a blank, the message of the cause. -/
def processNamespaces (fs : NamespaceFilters) (clientset : Clientset)
    (dynamicClient : DynamicClient) (filterOpts : Options) : ProcessRun :=
  match clientset.ListNamespaces filterOpts.IncludeLabels with
  | .error err =>
    { unused := [], err := some ⟨"failed to list namespaces: " ++ err.msg⟩, scanned := [] }
  | .ok namespaces =>
    processNamespacesLoop fs clientset dynamicClient filterOpts namespaces []

/-- The map resources of GetUnusedNamespaces: namespace, then kind, then the
entries. -/
abbrev Resources : Type := List (String × List (String × List ResourceInfo))

/-- The functions of package kor and of encoding/json that GetUnusedNamespaces
calls and whose files are not among the sources; they are parameters of the
model. -/
structure Reporting where
  DeleteResource : List ResourceInfo → Clientset → String → String → Bool →
    List ResourceInfo × Option Error
  FormatOutput : Resources → Opts → String
  MarshalIndent : Resources → Except Error String
  unusedResourceFormatter : String → String → Opts → String → String × Option Error

/-- A line GetUnusedNamespaces prints: the first three go to standard error, the
last to standard output. -/
inductive LogLine where
  | excludeIgnored
  | processFailed (err : Error)
  | deleteFailed (diff : List ResourceInfo) (err : Error)
  | formatterFailed (err : Error)
deriving DecidableEq, Repr

/-- What a call of GetUnusedNamespaces leaves behind: the Go result pair, the
options its pointer argument points to on return, the lines printed, and the run
of processNamespaces it made. -/
structure GetUnusedRun where
  output : String
  err : Option Error
  filterOpts : Options
  log : List LogLine
  processed : ProcessRun
deriving DecidableEq, Repr

/-- Source GetUnusedNamespaces. -/
def GetUnusedNamespaces (rep : Reporting) (fs : NamespaceFilters) (filterOpts : Options)
    (clientset : Clientset) (dynamicClient : DynamicClient) (outputFormat : String)
    (opts : Opts) : GetUnusedRun :=
  let both : Bool :=
    decide (filterOpts.IncludeNamespaces.length > 0 ∧ filterOpts.ExcludeNamespaces.length > 0)
  let log0 : List LogLine := if both then [.excludeIgnored] else []
  let filterOpts1 : Options :=
    if both then { filterOpts with ExcludeNamespaces := [] } else filterOpts
  let processed := processNamespaces fs clientset dynamicClient filterOpts1
  let diff := processed.unused
  let log1 : List LogLine :=
    match processed.err with
    | some err => log0 ++ [.processFailed err]
    | none => log0
  let resources : Resources :=
    if diff.length > 0 then [("", [("Namespaces", diff)])] else []
  let log2 : List LogLine :=
    if opts.DeleteFlag then
      match rep.DeleteResource diff clientset "" "Namespace" opts.NoInteractive with
      | (deleted, some err) => log1 ++ [.deleteFailed deleted err]
      | (_, none) => log1
    else log1
  let rendered : Except Error (String × String) :=
    if outputFormat = "table" then .ok (rep.FormatOutput resources opts, "")
    else if outputFormat = "json" ∨ outputFormat = "yaml" then
      match rep.MarshalIndent resources with
      | .error err => .error err
      | .ok jsonResponse => .ok ("", jsonResponse)
    else .ok ("", "")
  match rendered with
  | .error err =>
    { output := "", err := some err, filterOpts := filterOpts1, log := log2,
      processed := processed }
  | .ok (outputBuffer, jsonResponse) =>
    match rep.unusedResourceFormatter outputFormat outputBuffer opts jsonResponse with
    | (unusedNamespaces, some err) =>
      { output := unusedNamespaces, err := none, filterOpts := filterOpts1,
        log := log2 ++ [.formatterFailed err], processed := processed }
    | (unusedNamespaces, none) =>
      { output := unusedNamespaces, err := none, filterOpts := filterOpts1, log := log2,
        processed := processed }

/-! ## services.go: processNamespaceServices -/

/-- An entry of an exception list of the embedded configuration. -/
structure ExceptionResource where
  Namespace : String
  ResourceName : String
deriving DecidableEq, Repr

/-- The configuration unmarshalConfig returns, with the one field
processNamespaceServices reads. -/
structure Config where
  ExceptionServices : List ExceptionResource := []
deriving DecidableEq, Repr

/-- What processNamespaceServices uses and the sources do not declare; parameters
of the model.
* filterRun k opts: the first result of filter.Run(filterOpts) in the iteration of
  index k. The receiver filter is declared outside the sources and the call passes
  the options only, so the verdict is a function of the iteration and the options;
  the second result is discarded by the source.
* servicesConfig: the embedded bytes of exceptions/services/services.json.
* unmarshalConfig and isResourceException: the functions of package kor. -/
structure ServicesEnv where
  filterRun : Nat → Options → Bool
  servicesConfig : String
  unmarshalConfig : String → Except Error Config
  isResourceException : String → String → List ExceptionResource → Bool

/-- Go map indexing m[key] on a map of strings: the value, or the empty string for
a key that is absent. -/
def mapIndex (m : List (String × String)) (key : String) : String :=
  (m.lookup key).getD ""

/-- The loop of processNamespaceServices over endpointsList.Items; the first
argument is the index of the iteration, the third the slice
endpointsWithoutSubsets built so far. -/
def processNamespaceServicesLoop (env : ServicesEnv) (ns : String) (filterOpts : Options) :
    Nat → List Endpoints → List String → List String × Option Error
  | _, [], endpointsWithoutSubsets => (endpointsWithoutSubsets, none)
  | k, endpoints :: rest, endpointsWithoutSubsets =>
    if env.filterRun k filterOpts then
      processNamespaceServicesLoop env ns filterOpts (k + 1) rest endpointsWithoutSubsets
    else
      match env.unmarshalConfig env.servicesConfig with
      | .error err => ([], some err)
      | .ok config =>
        if env.isResourceException endpoints.Name ns config.ExceptionServices then
          processNamespaceServicesLoop env ns filterOpts (k + 1) rest endpointsWithoutSubsets
        else if mapIndex endpoints.Labels "kor/used" = "false" then
          processNamespaceServicesLoop env ns filterOpts (k + 1) rest
            (endpointsWithoutSubsets ++ [endpoints.Name])
        else if endpoints.Subsets.length = 0 then
          processNamespaceServicesLoop env ns filterOpts (k + 1) rest
            (endpointsWithoutSubsets ++ [endpoints.Name])
        else
          processNamespaceServicesLoop env ns filterOpts (k + 1) rest endpointsWithoutSubsets

/-- Source processNamespaceServices: the Go result pair, the nil slice being the
empty list. -/
def processNamespaceServices (env : ServicesEnv) (clientset : Clientset) (ns : String)
    (filterOpts : Options) : List String × Option Error :=
  match clientset.ListEndpoints ns filterOpts.IncludeLabels with
  | .error err => ([], some err)
  | .ok endpointsList => processNamespaceServicesLoop env ns filterOpts 0 endpointsList []

/-- An endpoints object in the iteration of index k is reported: the filter run
does not skip it, it is no service exception of the configuration, and it carries
the label kor/used with the value false or has no subsets. -/
def endpointsReported (env : ServicesEnv) (ns : String) (filterOpts : Options)
    (config : Config) (k : Nat) (endpoints : Endpoints) : Bool :=
  !env.filterRun k filterOpts
    && !env.isResourceException endpoints.Name ns config.ExceptionServices
    && (decide (mapIndex endpoints.Labels "kor/used" = "false")
        || decide (endpoints.Subsets.length = 0))

/-! ## Vocabulary of the statements -/

/-- The two loops of the scanner as one loop over the reported kinds in visiting
order: the same three-way body, the same early returns. Used to state and to
prove the properties of the nested loops (scanAPIResourceLists_eq_scanKinds). -/
def scanKinds (dynamicClient : DynamicClient) (ns : String) (filterOpts : Options) :
    List (String × APIResource) → (Bool × Option Error) × List ListCall
  | [] => ((false, none), [])
  | (groupVersion, apiResource) :: rest =>
    match getGVR apiResource.Name (stringsSplit groupVersion '/') with
    | (_, some err) => ((true, some err), [])
    | (none, none) => ((true, some ⟨"nil pointer dereference"⟩), [])
    | (some gvr, none) =>
      match dynamicClient.ListResource gvr ns with
      | .error _ =>
        let r := scanKinds dynamicClient ns filterOpts rest
        (r.1, ⟨gvr, ns⟩ :: r.2)
      | .ok unstructuredList =>
        if isNamespaceNotEmpty gvr unstructuredList filterOpts then
          ((true, none), [⟨gvr, ns⟩])
        else
          let r := scanKinds dynamicClient ns filterOpts rest
          (r.1, ⟨gvr, ns⟩ :: r.2)

/-- The reported kinds of a discovery answer in the order the loops visit them:
each resource with the group-version string of the list it stands in. -/
def reportedKinds : List APIResourceList → List (String × APIResource)
  | [] => []
  | l :: rest => l.APIResources.map (fun r => (l.GroupVersion, r)) ++ reportedKinds rest

/-- The number of '/' characters of a string. -/
def slashCount (s : String) : Nat :=
  s.data.count '/'

/-- The pair getGVR returns for a reported kind inside the scanner. -/
def resolveKind (k : String × APIResource) : Option GroupVersionResource × Option Error :=
  getGVR k.2.Name (stringsSplit k.1 '/')

/-- An item of a list answer survives both ignore checks for the triple gvr. -/
def survives (gvr : GroupVersionResource) (filterOpts : Options) (u : Unstructured) : Bool :=
  !ignorePredefinedResource
      { GVR := gvr, NamespacedName := { Namespace := u.GetNamespace, Name := u.GetName } }
    && !ignoreResourceType gvr.Resource filterOpts.IgnoreResourceTypes

/-- The list call of the kind succeeds and one of its items survives both checks. -/
def kindHasSurvivor (dynamicClient : DynamicClient) (ns : String) (filterOpts : Options)
    (k : String × APIResource) : Prop :=
  ∃ gvr items, resolveKind k = (some gvr, none)
    ∧ dynamicClient.ListResource gvr ns = .ok items
    ∧ ∃ u ∈ items, survives gvr filterOpts u = true

/-- The list calls the scanner issues when it lists every kind of the given run
of kinds: one call per kind that resolves, in order. -/
def kindCalls (ns : String) (kinds : List (String × APIResource)) : List ListCall :=
  kinds.filterMap (fun k => (resolveKind k).1.map (fun gvr => ⟨gvr, ns⟩))

/-- The dynamic client in which every failing list call succeeds with no items
instead. -/
def swallowListErrors (dynamicClient : DynamicClient) : DynamicClient :=
  { ListResource := fun gvr ns =>
      match dynamicClient.ListResource gvr ns with
      | .error _ => .ok []
      | .ok items => .ok items }

/-! ## The fixtures of namespacesMoreTests_test.go -/

/-- The kind every discovery fixture of the tests reports. -/
def deploymentsResource : APIResource :=
  { Name := "deployments", Namespaced := true, Kind := "Deployment" }

/-- The discovery answer of the test fixture fakeHappyDiscovery: one
group-version apps/v1 with deployments. -/
def happyAnswer : List APIResourceList :=
  [{ GroupVersion := "apps/v1", APIResources := [deploymentsResource] }]

/-- Test fixture fakeHappyDiscovery. -/
def fakeHappyDiscovery : Clientset :=
  { Discovery := { ServerPreferredNamespacedResources := .ok happyAnswer } }

/-- The options of the first scanner test: configmaps and secrets are ignored. -/
def ignoreSecretsOptions : Options :=
  { IgnoreResourceTypes := ["configmaps", "secrets"] }

/-- Test fixture fakeUnhappyDiscovery: the discovery call fails. -/
def fakeUnhappyDiscovery : Clientset :=
  { Discovery := { ServerPreferredNamespacedResources := .error ⟨"fake error from discovery"⟩ } }

/-- Test fixture fakeBrokenAPIResourceListDiscovery: a group-version string with
three separators. -/
def fakeBrokenAPIResourceListDiscovery : Clientset :=
  { Discovery :=
      { ServerPreferredNamespacedResources :=
          .ok [{ GroupVersion := "fake/broken/apps/v1", APIResources := [deploymentsResource] }] } }

/-- The triple apps/v1 deployments. -/
def deploymentsGVR : GroupVersionResource :=
  { Group := "apps", Version := "v1", Resource := "deployments" }

/-- A dynamic client over a cluster holding the deployment test-object in
test-namespace and nothing else. -/
def oneDeploymentClient : DynamicClient :=
  { ListResource := fun gvr ns =>
      if gvr = deploymentsGVR ∧ ns = "test-namespace" then
        .ok [{ GetNamespace := "test-namespace", GetName := "test-object" }]
      else .ok [] }

/-- A dynamic client over an empty cluster. -/
def emptyClusterClient : DynamicClient :=
  { ListResource := fun _ _ => .ok [] }

/-- A dynamic client whose list calls are all forced to fail (the reactor of
createDynamicDeployListForcedErrorFakeClientInterfaces). -/
def forcedErrorClient : DynamicClient :=
  { ListResource := fun _ _ => .error ⟨"forced error"⟩ }

/-- A discovery answer with a well-formed kind before and after a kind whose
group-version string does not resolve. -/
def mixedAnswer : List APIResourceList :=
  [ { GroupVersion := "apps/v1", APIResources := [deploymentsResource] },
    { GroupVersion := "fake/broken/apps/v1", APIResources := [deploymentsResource] },
    { GroupVersion := "v1", APIResources := [{ Name := "pods", Namespaced := true, Kind := "Pod" }] } ]

/-- The kind pods of the core group. -/
def podsResource : APIResource :=
  { Name := "pods", Namespaced := true, Kind := "Pod" }

/-- The triple v1 pods. -/
def podsGVR : GroupVersionResource :=
  { Group := "", Version := "v1", Resource := "pods" }

/-- A discovery answer with two kinds: apps/v1 deployments, then v1 pods. -/
def deploymentsAndPodsAnswer : List APIResourceList :=
  [ { GroupVersion := "apps/v1", APIResources := [deploymentsResource] },
    { GroupVersion := "v1", APIResources := [podsResource] } ]

/-- A clientset whose discovery call returns deploymentsAndPodsAnswer. -/
def deploymentsAndPodsDiscovery : Clientset :=
  { Discovery := { ServerPreferredNamespacedResources := .ok deploymentsAndPodsAnswer } }

/-- A dynamic client on which the list call for deployments is forced to fail and
every other list call succeeds with no items. -/
def deploymentsFailClient : DynamicClient :=
  { ListResource := fun gvr _ =>
      if gvr = deploymentsGVR then .error ⟨"forced error"⟩ else .ok [] }

/-- A discovery answer without kinds: two groups, one with a group-version
string that would not resolve, both with no resources. -/
def noKindsAnswer : List APIResourceList :=
  [ { GroupVersion := "fake/broken/apps/v1", APIResources := [] },
    { GroupVersion := "v1", APIResources := [] } ]

/-- A clientset whose discovery call returns noKindsAnswer. -/
def noKindsDiscovery : Clientset :=
  { Discovery := { ServerPreferredNamespacedResources := .ok noKindsAnswer } }

/-- A clientset whose discovery call returns mixedAnswer. -/
def mixedDiscovery : Clientset :=
  { Discovery := { ServerPreferredNamespacedResources := .ok mixedAnswer } }

/-- The map GetUnusedNamespaces builds from the list diff of processNamespaces: the
entry Namespaces under the empty namespace when the list is not empty, no entry
otherwise. -/
def namespaceResources (diff : List ResourceInfo) : Resources :=
  if diff.length > 0 then [("", [("Namespaces", diff)])] else []

/-! ## Fixtures for the filter chain and for processNamespaces -/

/-- Test helper testHelperFilterTrue of filters_test.go. -/
def testHelperFilterTrue {Obj : Type} : FilterFunction Obj :=
  fun _ _ => true

/-- Test helper testHelperFilterFalse of filters_test.go. -/
def testHelperFilterFalse {Obj : Type} : FilterFunction Obj :=
  fun _ _ => false

/-- Modelled from the spec: filters.SystemNamespaceFilter (filters.go is not among
the sources). Section 4.1: excludes when the name of the object is one of
default, kube-system, kube-public, kube-node-lease. -/
def SystemNamespaceFilter : FilterFunction Namespace :=
  fun object _ =>
    decide (object.Name ∈ ["default", "kube-system", "kube-public", "kube-node-lease"])

/-- Modelled from the spec: filters.ExcludeNamespacesFilter (filters.go is not
among the sources). Section 4.1: with a non-empty exclude-set, excludes an object
whose namespace name is in the set; with an empty set, never excludes. -/
def ExcludeNamespacesFilter : FilterFunction Namespace :=
  fun object opts =>
    decide (opts.ExcludeNamespaces ≠ [] ∧ object.Name ∈ opts.ExcludeNamespaces)

/-- Modelled from the spec: filters.IncludeNamespacesFilter (filters.go is not
among the sources). Section 4.1: with a non-empty include-set, excludes an object
whose namespace name is not in the set; with an empty set, never excludes. -/
def IncludeNamespacesFilter : FilterFunction Namespace :=
  fun object opts =>
    decide (opts.IncludeNamespaces ≠ [] ∧ object.Name ∉ opts.IncludeNamespaces)

/-- Modelled from the spec: filters.KorLabelFilter (filters.go is not among the
sources). Section 4.1: excludes when the object carries the label kor/used with
the value true; absence or any other value does not exclude. -/
def KorLabelFilter : FilterFunction Namespace :=
  fun object _ => decide (object.Labels.lookup "kor/used" = some "true")

/-- A filter set for the instances below: the four name and marker predicates as
the spec words them, the label and age predicates stood in for by
testHelperFilterFalse. -/
def fixtureFilters : NamespaceFilters :=
  { SystemNamespaceFilter := SystemNamespaceFilter
    ExcludeNamespacesFilter := ExcludeNamespacesFilter
    IncludeNamespacesFilter := IncludeNamespacesFilter
    KorLabelFilter := KorLabelFilter
    LabelFilter := testHelperFilterFalse
    AgeFilter := testHelperFilterFalse }

/-- The namespaces of the fixture cluster: a system namespace, the namespace of
the deployment test-object, a namespace marked as used, and an empty namespace. -/
def fixtureNamespaces : List Namespace :=
  [ { Name := "default" },
    { Name := "test-namespace" },
    { Name := "marked-namespace", Labels := [("kor/used", "true")] },
    { Name := "empty-namespace" } ]

/-- The fixture cluster seen through the typed clientset: the happy discovery
answer and the four namespaces, whatever the label selector. -/
def fixtureClientset : Clientset :=
  { Discovery := { ServerPreferredNamespacedResources := .ok happyAnswer }
    ListNamespaces := fun _ => .ok fixtureNamespaces }

/-- Stand-ins for the reporting functions: nothing is deleted, the table is the
names joined by commas, the JSON is the number of top-level keys, and the
formatter hands back the buffer for tables and the JSON otherwise. -/
def fixtureReporting : Reporting :=
  { DeleteResource := fun diff _ _ _ _ => (diff, none)
    FormatOutput := fun resources _ =>
      ",".intercalate
        (resources.flatMap (fun e => e.2.flatMap (fun k => k.2.map (fun i => i.Name))))
    MarshalIndent := fun resources => .ok (toString resources.length)
    unusedResourceFormatter := fun outputFormat outputBuffer _ jsonResponse =>
      (if outputFormat = "table" then outputBuffer else jsonResponse, none) }

/-- Options with both an include-set and an exclude-set. -/
def ambiguousOptions : Options :=
  { IncludeNamespaces := ["test-namespace", "empty-namespace"]
    ExcludeNamespaces := ["empty-namespace"] }

/-- Options with an include-set only. -/
def includeOnlyOptions : Options :=
  { IncludeNamespaces := ["test-namespace", "empty-namespace"] }

/-- The namespaces of the changing fixture cluster. -/
def changingNamespaces : List Namespace :=
  [ { Name := "default" },
    { Name := "empty-namespace" },
    { Name := "late-namespace" },
    { Name := "test-namespace" } ]

/-- A fixture cluster that changes during the run: discovery answers as in
fakeHappyDiscovery until the scan of late-namespace, during which it fails as in
fakeUnhappyDiscovery. -/
def changingClientset : Clientset :=
  { Discovery := { ServerPreferredNamespacedResources := .ok happyAnswer }
    ListNamespaces := fun _ => .ok changingNamespaces
    DiscoveryDuring := fun name =>
      if name = "late-namespace" then
        { ServerPreferredNamespacedResources := .error ⟨"fake error from discovery"⟩ }
      else { ServerPreferredNamespacedResources := .ok happyAnswer } }

/-- Stand-ins for what processNamespaceServices takes from outside the sources:
the filter run skips the first iteration only, the configuration excepts the
service kubernetes of the namespace default, and a service is an exception when
the list holds its namespace and name. -/
def fixtureServicesEnv : ServicesEnv :=
  { filterRun := fun k _ => decide (k = 0)
    servicesConfig := "services.json"
    unmarshalConfig := fun _ =>
      .ok { ExceptionServices := [{ Namespace := "default", ResourceName := "kubernetes" }] }
    isResourceException := fun name ns exceptions =>
      decide (({ Namespace := ns, ResourceName := name } : ExceptionResource) ∈ exceptions) }

/-- The endpoints objects of the namespace default of the fixture cluster. -/
def fixtureEndpoints : List Endpoints :=
  [ { Name := "skipped" },
    { Name := "kubernetes" },
    { Name := "serving", Subsets := [{ Addresses := ["10.0.0.1"] }] },
    { Name := "marked", Labels := [("kor/used", "false")],
      Subsets := [{ Addresses := ["10.0.0.2"] }] },
    { Name := "dangling" } ]

/-- The fixture cluster seen through the endpoints listing. -/
def fixtureEndpointsClientset : Clientset :=
  { Discovery := { ServerPreferredNamespacedResources := .ok happyAnswer }
    ListEndpoints := fun _ _ => .ok fixtureEndpoints }

/-! ## Lemmas on strings.Split and getGVR -/

theorem splitChars_ne_nil (sep : Char) (cs : List Char) : splitChars sep cs ≠ [] := by
  cases cs with
  | nil => simp [splitChars]
  | cons c cs =>
    unfold splitChars
    split
    · simp
    · split <;> simp

theorem splitChars_length (sep : Char) (cs : List Char) :
    (splitChars sep cs).length = cs.count sep + 1 := by
  induction cs with
  | nil => simp [splitChars]
  | cons c cs ih =>
    unfold splitChars
    by_cases h : c = sep
    · subst h
      simp [ih]
    · have hne : (c == sep) = false := by simpa using h
      rw [if_neg h, List.count_cons, hne]
      cases hs : splitChars sep cs with
      | nil => exact absurd hs (splitChars_ne_nil sep cs)
      | cons piece rest =>
        rw [hs] at ih
        simpa using ih

theorem stringsSplit_length (s : String) :
    (stringsSplit s '/').length = slashCount s + 1 := by
  simp [stringsSplit, slashCount, splitChars_length]

theorem getGVR_err_isSome_iff (name : String) (splitGV : List String) :
    (getGVR name splitGV).2.isSome = true ↔ splitGV.length ≠ 1 ∧ splitGV.length ≠ 2 := by
  match splitGV with
  | [] => simp [getGVR]
  | [_] => simp [getGVR]
  | [_, _] => simp [getGVR]
  | _ :: _ :: _ :: _ => simp [getGVR]

theorem getGVR_ptr_isNone_iff (name : String) (splitGV : List String) :
    (getGVR name splitGV).1.isNone = true ↔ (getGVR name splitGV).2.isSome = true := by
  match splitGV with
  | [] => simp [getGVR]
  | [_] => simp [getGVR]
  | [_, _] => simp [getGVR]
  | _ :: _ :: _ :: _ => simp [getGVR]

theorem getGVR_ne_nil_nil (name : String) (splitGV : List String) :
    getGVR name splitGV ≠ (none, none) := by
  intro h
  have h1 := (getGVR_ptr_isNone_iff name splitGV).1 (by rw [h]; rfl)
  rw [h] at h1
  exact absurd h1 (by simp)

theorem resolveKind_ok_of_slashCount_le_one (k : String × APIResource)
    (h : slashCount k.1 ≤ 1) : ∃ gvr, resolveKind k = (some gvr, none) := by
  have hlen := stringsSplit_length k.1
  unfold resolveKind
  match hs : stringsSplit k.1 '/' with
  | [] => rw [hs] at hlen; simp at hlen
  | [v] => exact ⟨_, rfl⟩
  | [g, v] => exact ⟨_, rfl⟩
  | _ :: _ :: _ :: _ => rw [hs] at hlen; simp at hlen; omega

/-! ## Lemmas on the per-kind test and on the two loops -/

theorem isNamespaceNotEmpty_iff (gvr : GroupVersionResource) (items : List Unstructured)
    (filterOpts : Options) :
    isNamespaceNotEmpty gvr items filterOpts = true
      ↔ ∃ u ∈ items, survives gvr filterOpts u = true := by
  induction items with
  | nil => simp [isNamespaceNotEmpty]
  | cons u rest ih =>
    unfold isNamespaceNotEmpty
    simp only [List.mem_cons, exists_eq_or_imp]
    by_cases h1 : ignorePredefinedResource
        { GVR := gvr, NamespacedName := { Namespace := u.GetNamespace, Name := u.GetName } }
          = true
    · simp [h1, ih, survives]
    · by_cases h2 : ignoreResourceType gvr.Resource filterOpts.IgnoreResourceTypes = true
      · simp [h1, h2, ih, survives]
      · simp [h1, h2, survives]

theorem scanKinds_cons_abort (dyn : DynamicClient) (ns : String) (o : Options)
    (k : String × APIResource) (rest : List (String × APIResource))
    (p : Option GroupVersionResource) (e : Error) (h : resolveKind k = (p, some e)) :
    scanKinds dyn ns o (k :: rest) = ((true, some e), []) := by
  obtain ⟨gv, r⟩ := k
  unfold resolveKind at h
  simp only at h
  simp [scanKinds, h]

theorem scanKinds_cons_hit (dyn : DynamicClient) (ns : String) (o : Options)
    (k : String × APIResource) (rest : List (String × APIResource))
    (gvr : GroupVersionResource) (items : List Unstructured)
    (h : resolveKind k = (some gvr, none)) (hl : dyn.ListResource gvr ns = .ok items)
    (hn : isNamespaceNotEmpty gvr items o = true) :
    scanKinds dyn ns o (k :: rest) = ((true, none), [⟨gvr, ns⟩]) := by
  obtain ⟨gv, r⟩ := k
  unfold resolveKind at h
  simp only at h
  simp [scanKinds, h, hl, hn]

theorem scanKinds_cons_empty (dyn : DynamicClient) (ns : String) (o : Options)
    (k : String × APIResource) (rest : List (String × APIResource))
    (gvr : GroupVersionResource) (items : List Unstructured)
    (h : resolveKind k = (some gvr, none)) (hl : dyn.ListResource gvr ns = .ok items)
    (hn : isNamespaceNotEmpty gvr items o = false) :
    scanKinds dyn ns o (k :: rest)
      = ((scanKinds dyn ns o rest).1, ⟨gvr, ns⟩ :: (scanKinds dyn ns o rest).2) := by
  obtain ⟨gv, r⟩ := k
  unfold resolveKind at h
  simp only at h
  simp [scanKinds, h, hl, hn]

theorem scanKinds_cons_listError (dyn : DynamicClient) (ns : String) (o : Options)
    (k : String × APIResource) (rest : List (String × APIResource))
    (gvr : GroupVersionResource) (e : Error)
    (h : resolveKind k = (some gvr, none)) (hl : dyn.ListResource gvr ns = .error e) :
    scanKinds dyn ns o (k :: rest)
      = ((scanKinds dyn ns o rest).1, ⟨gvr, ns⟩ :: (scanKinds dyn ns o rest).2) := by
  obtain ⟨gv, r⟩ := k
  unfold resolveKind at h
  simp only at h
  simp [scanKinds, h, hl]

/-- The inner loop is the one-loop scan of its kinds, continued by the rest when
it runs to its end. -/
theorem scanKinds_map_append (dyn : DynamicClient) (ns : String) (o : Options) (gv : String)
    (rs : List APIResource) (tail : List (String × APIResource)) :
    scanKinds dyn ns o (rs.map (fun r => (gv, r)) ++ tail)
      = match scanAPIResources dyn ns o gv rs with
        | (some r, calls) => (r, calls)
        | (none, calls) =>
          ((scanKinds dyn ns o tail).1, calls ++ (scanKinds dyn ns o tail).2) := by
  induction rs with
  | nil => simp [scanAPIResources]
  | cons r rs ih =>
    simp only [List.map_cons, List.cons_append, scanAPIResources, scanKinds]
    rcases hg : getGVR r.Name (stringsSplit gv '/') with ⟨p, e⟩
    cases e with
    | some e => simp
    | none =>
      cases p with
      | none => simp
      | some gvr =>
        simp only
        cases hl : dyn.ListResource gvr ns with
        | error e =>
          simp only [List.append_eq]
          rw [ih]
          rcases scanAPIResources dyn ns o gv rs with ⟨x, calls⟩
          cases x <;> simp
        | ok items =>
          simp only
          by_cases hn : isNamespaceNotEmpty gvr items o = true
          · simp [hn]
          · simp only [hn, List.append_eq]
            rw [ih]
            rcases scanAPIResources dyn ns o gv rs with ⟨x, calls⟩
            cases x <;> simp

/-- The nested loops visit the reported kinds in order and do on them what the
one-loop scan does. -/
theorem scanAPIResourceLists_eq_scanKinds (dyn : DynamicClient) (ns : String) (o : Options)
    (lists : List APIResourceList) :
    scanAPIResourceLists dyn ns o lists = scanKinds dyn ns o (reportedKinds lists) := by
  induction lists with
  | nil => simp [scanAPIResourceLists, reportedKinds, scanKinds]
  | cons l rest ih =>
    simp only [scanAPIResourceLists, reportedKinds]
    rw [scanKinds_map_append, ih]

theorem mem_reportedKinds (lists : List APIResourceList) (k : String × APIResource) :
    k ∈ reportedKinds lists ↔ ∃ l ∈ lists, ∃ r ∈ l.APIResources, k = (l.GroupVersion, r) := by
  induction lists with
  | nil => simp [reportedKinds]
  | cons l rest ih =>
    simp only [reportedKinds, List.mem_append, List.mem_map, ih, List.mem_cons,
      exists_eq_or_imp]
    constructor
    · rintro (⟨r, hr, rfl⟩ | h)
      · exact Or.inl ⟨r, hr, rfl⟩
      · exact Or.inr h
    · rintro (⟨r, hr, rfl⟩ | h)
      · exact Or.inl ⟨r, hr, rfl⟩
      · exact Or.inr h

theorem runScan_ok (clientset : Clientset) (dyn : DynamicClient) (ns : String) (o : Options)
    (lists : List APIResourceList)
    (h : clientset.Discovery.ServerPreferredNamespacedResources = .ok lists) :
    runScan clientset dyn ns o
      = { found := (scanKinds dyn ns o (reportedKinds lists)).1.1
          err := (scanKinds dyn ns o (reportedKinds lists)).1.2
          calls := (scanKinds dyn ns o (reportedKinds lists)).2 } := by
  simp [runScan, h, scanAPIResourceLists_eq_scanKinds]

theorem runScan_error (clientset : Clientset) (dyn : DynamicClient) (ns : String)
    (o : Options) (e : Error)
    (h : clientset.Discovery.ServerPreferredNamespacedResources = .error e) :
    runScan clientset dyn ns o = { found := true, err := some e, calls := [] } := by
  simp [runScan, h]

/-! ## One step of the scan, by what the kind at the head does -/

theorem resolveKind_cases (k : String × APIResource) :
    (∃ p e, resolveKind k = (p, some e)) ∨ (∃ gvr, resolveKind k = (some gvr, none)) := by
  rcases h : resolveKind k with ⟨p, e⟩
  cases e with
  | some e => exact Or.inl ⟨p, e, rfl⟩
  | none =>
    cases p with
    | some gvr => exact Or.inr ⟨gvr, rfl⟩
    | none => exact absurd h (getGVR_ne_nil_nil _ _)

theorem scanKinds_cons_survivor (dyn : DynamicClient) (ns : String) (o : Options)
    (k : String × APIResource) (rest : List (String × APIResource))
    (gvr : GroupVersionResource) (h : resolveKind k = (some gvr, none))
    (hs : kindHasSurvivor dyn ns o k) :
    scanKinds dyn ns o (k :: rest) = ((true, none), [⟨gvr, ns⟩]) := by
  obtain ⟨gvr2, items, h2, hl, hu⟩ := hs
  rw [h] at h2
  obtain rfl : gvr = gvr2 := by simpa using h2
  exact scanKinds_cons_hit dyn ns o k rest gvr items h hl
    ((isNamespaceNotEmpty_iff gvr items o).2 hu)

theorem scanKinds_cons_noSurvivor (dyn : DynamicClient) (ns : String) (o : Options)
    (k : String × APIResource) (rest : List (String × APIResource))
    (gvr : GroupVersionResource) (h : resolveKind k = (some gvr, none))
    (hs : ¬ kindHasSurvivor dyn ns o k) :
    scanKinds dyn ns o (k :: rest)
      = ((scanKinds dyn ns o rest).1, ⟨gvr, ns⟩ :: (scanKinds dyn ns o rest).2) := by
  cases hl : dyn.ListResource gvr ns with
  | error e => exact scanKinds_cons_listError dyn ns o k rest gvr e h hl
  | ok items =>
    apply scanKinds_cons_empty dyn ns o k rest gvr items h hl
    cases hn : isNamespaceNotEmpty gvr items o with
    | false => rfl
    | true => exact absurd ⟨gvr, items, h, hl, (isNamespaceNotEmpty_iff gvr items o).1 hn⟩ hs

theorem kindCalls_cons_resolved (ns : String) (k : String × APIResource)
    (rest : List (String × APIResource)) (gvr : GroupVersionResource)
    (h : resolveKind k = (some gvr, none)) :
    kindCalls ns (k :: rest) = ⟨gvr, ns⟩ :: kindCalls ns rest := by
  simp [kindCalls, List.filterMap_cons, h]

/-! ## The scan over a run of kinds -/

/-- Kinds that resolve and have no surviving instance are listed and passed. -/
theorem scanKinds_append_noSurvivor (dyn : DynamicClient) (ns : String) (o : Options)
    (pre rest : List (String × APIResource))
    (hpre : ∀ k ∈ pre, (∃ gvr, resolveKind k = (some gvr, none))
      ∧ ¬ kindHasSurvivor dyn ns o k) :
    scanKinds dyn ns o (pre ++ rest)
      = ((scanKinds dyn ns o rest).1, kindCalls ns pre ++ (scanKinds dyn ns o rest).2) := by
  induction pre with
  | nil => simp [kindCalls]
  | cons k pre ih =>
    obtain ⟨⟨gvr, hk⟩, hns⟩ := hpre k (List.mem_cons_self _ _)
    have ih2 := ih (fun k2 hk2 => hpre k2 (List.mem_cons_of_mem _ hk2))
    rw [List.cons_append, scanKinds_cons_noSurvivor dyn ns o k _ gvr hk hns, ih2,
      kindCalls_cons_resolved ns k pre gvr hk]
    simp

/-- With every kind resolving, the result is decided by the existence of a kind
with a surviving instance. -/
theorem scanKinds_resolving (dyn : DynamicClient) (ns : String) (o : Options)
    (kinds : List (String × APIResource))
    (hres : ∀ k ∈ kinds, ∃ gvr, resolveKind k = (some gvr, none)) :
    ((∃ k ∈ kinds, kindHasSurvivor dyn ns o k) → (scanKinds dyn ns o kinds).1 = (true, none))
      ∧ ((¬ ∃ k ∈ kinds, kindHasSurvivor dyn ns o k)
          → (scanKinds dyn ns o kinds).1 = (false, none)) := by
  induction kinds with
  | nil => simp [scanKinds]
  | cons k rest ih =>
    obtain ⟨gvr, hk⟩ := hres k (List.mem_cons_self _ _)
    have ih2 := ih (fun k2 hk2 => hres k2 (List.mem_cons_of_mem _ hk2))
    by_cases hs : kindHasSurvivor dyn ns o k
    · rw [scanKinds_cons_survivor dyn ns o k rest gvr hk hs]
      exact ⟨fun _ => rfl, fun hno => absurd ⟨k, List.mem_cons_self _ _, hs⟩ hno⟩
    · rw [scanKinds_cons_noSurvivor dyn ns o k rest gvr hk hs]
      constructor
      · rintro ⟨k2, hk2, hs2⟩
        rcases List.mem_cons.1 hk2 with rfl | hmem
        · exact absurd hs2 hs
        · exact ih2.1 ⟨k2, hmem, hs2⟩
      · intro hno
        exact ih2.2 (fun ⟨k2, hk2, hs2⟩ => hno ⟨k2, List.mem_cons_of_mem _ hk2, hs2⟩)

/-- A returned error comes from the resolution of a reported kind, and comes with
the boolean true. -/
theorem scanKinds_err (dyn : DynamicClient) (ns : String) (o : Options)
    (kinds : List (String × APIResource)) (e : Error)
    (h : (scanKinds dyn ns o kinds).1.2 = some e) :
    (scanKinds dyn ns o kinds).1.1 = true ∧ ∃ k ∈ kinds, (resolveKind k).2 = some e := by
  induction kinds with
  | nil => simp [scanKinds] at h
  | cons k rest ih =>
    rcases resolveKind_cases k with ⟨p, e2, hk⟩ | ⟨gvr, hk⟩
    · rw [scanKinds_cons_abort dyn ns o k rest p e2 hk] at h ⊢
      obtain rfl : e2 = e := by simpa using h
      exact ⟨rfl, k, List.mem_cons_self _ _, by rw [hk]⟩
    · by_cases hs : kindHasSurvivor dyn ns o k
      · rw [scanKinds_cons_survivor dyn ns o k rest gvr hk hs] at h
        simp at h
      · rw [scanKinds_cons_noSurvivor dyn ns o k rest gvr hk hs] at h ⊢
        obtain ⟨h1, k2, hk2, he⟩ := ih h
        exact ⟨h1, k2, List.mem_cons_of_mem _ hk2, he⟩

/-- The scan cannot tell a failing list call from one that returns no items. -/
theorem scanKinds_swallowListErrors (dyn : DynamicClient) (ns : String) (o : Options)
    (kinds : List (String × APIResource)) :
    scanKinds dyn ns o kinds = scanKinds (swallowListErrors dyn) ns o kinds := by
  induction kinds with
  | nil => simp [scanKinds]
  | cons k rest ih =>
    obtain ⟨gv, r⟩ := k
    simp only [scanKinds]
    rcases getGVR r.Name (stringsSplit gv '/') with ⟨p, e⟩
    cases p with
    | none => cases e <;> rfl
    | some gvr =>
      cases e with
      | some e => rfl
      | none =>
        simp only [swallowListErrors]
        cases hl : dyn.ListResource gvr ns with
        | error e =>
          simp only [isNamespaceNotEmpty, ih, swallowListErrors]
          simp
        | ok items =>
          simp only [ih, swallowListErrors]

/-- The scan stops at the first kind with a surviving instance: what follows it
does not matter, and no call is issued past it. -/
theorem scanKinds_shortCircuit (dyn : DynamicClient) (ns : String) (o : Options)
    (pre post : List (String × APIResource)) (k : String × APIResource)
    (hpre : ∀ p ∈ pre, ∃ gvr, resolveKind p = (some gvr, none))
    (hk : kindHasSurvivor dyn ns o k) :
    (scanKinds dyn ns o (pre ++ k :: post)).1 = (true, none)
      ∧ (scanKinds dyn ns o (pre ++ k :: post)).2 <+: kindCalls ns (pre ++ [k]) := by
  induction pre with
  | nil =>
    obtain ⟨gvr, items, hr, hl, hu⟩ := hk
    rw [List.nil_append, List.nil_append,
      scanKinds_cons_survivor dyn ns o k post gvr hr ⟨gvr, items, hr, hl, hu⟩,
      kindCalls_cons_resolved ns k [] gvr hr]
    simp [kindCalls]
  | cons p pre ih =>
    obtain ⟨gvr, hp⟩ := hpre p (List.mem_cons_self _ _)
    have ih2 := ih (fun k2 hk2 => hpre k2 (List.mem_cons_of_mem _ hk2))
    rw [List.cons_append, List.cons_append, kindCalls_cons_resolved ns p _ gvr hp]
    by_cases hs : kindHasSurvivor dyn ns o p
    · rw [scanKinds_cons_survivor dyn ns o p _ gvr hp hs]
      exact ⟨rfl, by simp [List.prefix_cons_inj]⟩
    · rw [scanKinds_cons_noSurvivor dyn ns o p _ gvr hp hs]
      exact ⟨ih2.1, (List.prefix_cons_inj _).2 ih2.2⟩

theorem reportedKinds_eq_nil (lists : List APIResourceList)
    (h : ∀ l ∈ lists, l.APIResources = []) : reportedKinds lists = [] := by
  induction lists with
  | nil => rfl
  | cons l rest ih =>
    simp [reportedKinds, h l (List.mem_cons_self _ _),
      ih (fun l2 hl2 => h l2 (List.mem_cons_of_mem _ hl2))]

/-! ## The namespace activity scanner: specification statements -/

/-- C1: with discovery succeeding and the group-version string of every reported
kind holding at most one '/', the scanner returns (true, nil) if and only if the
list call of some reported kind succeeds with an instance that neither
ignorePredefinedResource nor the IgnoreResourceTypes list catches; otherwise it
returns (false, nil). -/
theorem isErrorOrNamespaceContainsResources_true_iff_survivor
    (clientset : Clientset) (dyn : DynamicClient) (ns : String) (o : Options)
    (lists : List APIResourceList)
    (hdisc : clientset.Discovery.ServerPreferredNamespacedResources = .ok lists)
    (hres : ∀ l ∈ lists, ∀ r ∈ l.APIResources, slashCount l.GroupVersion ≤ 1) :
    (isErrorOrNamespaceContainsResources clientset dyn ns o = (true, none)
        ↔ ∃ l ∈ lists, ∃ r ∈ l.APIResources, kindHasSurvivor dyn ns o (l.GroupVersion, r))
      ∧ ((¬ ∃ l ∈ lists, ∃ r ∈ l.APIResources, kindHasSurvivor dyn ns o (l.GroupVersion, r))
          → isErrorOrNamespaceContainsResources clientset dyn ns o = (false, none)) := by
  have hk : ∀ k ∈ reportedKinds lists, ∃ gvr, resolveKind k = (some gvr, none) := by
    intro k hmem
    obtain ⟨l, hl, r, hr, rfl⟩ := (mem_reportedKinds lists k).1 hmem
    exact resolveKind_ok_of_slashCount_le_one _ (hres l hl r hr)
  have hex : (∃ k ∈ reportedKinds lists, kindHasSurvivor dyn ns o k)
      ↔ ∃ l ∈ lists, ∃ r ∈ l.APIResources, kindHasSurvivor dyn ns o (l.GroupVersion, r) := by
    constructor
    · rintro ⟨k, hmem, hs⟩
      obtain ⟨l, hl, r, hr, rfl⟩ := (mem_reportedKinds lists k).1 hmem
      exact ⟨l, hl, r, hr, hs⟩
    · rintro ⟨l, hl, r, hr, hs⟩
      exact ⟨_, (mem_reportedKinds lists _).2 ⟨l, hl, r, hr, rfl⟩, hs⟩
  have hscan := scanKinds_resolving dyn ns o (reportedKinds lists) hk
  have hrun : isErrorOrNamespaceContainsResources clientset dyn ns o
      = (scanKinds dyn ns o (reportedKinds lists)).1 := by
    simp [isErrorOrNamespaceContainsResources, runScan_ok clientset dyn ns o lists hdisc]
  rw [hrun, ← hex]
  refine ⟨⟨fun h => ?_, hscan.1⟩, hscan.2⟩
  by_contra hno
  rw [hscan.2 hno] at h
  simp at h

theorem isErrorOrNamespaceContainsResources_true_iff_survivor_witness :
    fakeHappyDiscovery.Discovery.ServerPreferredNamespacedResources = .ok happyAnswer
      ∧ (∀ l ∈ happyAnswer, ∀ r ∈ l.APIResources, slashCount l.GroupVersion ≤ 1)
      ∧ (isErrorOrNamespaceContainsResources fakeHappyDiscovery oneDeploymentClient
            "test-namespace" ignoreSecretsOptions = (true, none)
          ↔ ∃ l ∈ happyAnswer, ∃ r ∈ l.APIResources,
              kindHasSurvivor oneDeploymentClient "test-namespace" ignoreSecretsOptions
                (l.GroupVersion, r))
      ∧ ((¬ ∃ l ∈ happyAnswer, ∃ r ∈ l.APIResources,
              kindHasSurvivor oneDeploymentClient "test-namespace" ignoreSecretsOptions
                (l.GroupVersion, r))
          → isErrorOrNamespaceContainsResources fakeHappyDiscovery oneDeploymentClient
              "test-namespace" ignoreSecretsOptions = (false, none)) :=
  ⟨rfl, by decide,
    isErrorOrNamespaceContainsResources_true_iff_survivor fakeHappyDiscovery
      oneDeploymentClient "test-namespace" ignoreSecretsOptions happyAnswer rfl (by decide)⟩

/-- C2: whenever the scanner returns a non-nil error, its boolean result is true. -/
theorem isErrorOrNamespaceContainsResources_error_implies_true
    (clientset : Clientset) (dyn : DynamicClient) (ns : String) (o : Options)
    (herr : (isErrorOrNamespaceContainsResources clientset dyn ns o).2 ≠ none) :
    (isErrorOrNamespaceContainsResources clientset dyn ns o).1 = true := by
  cases hd : clientset.Discovery.ServerPreferredNamespacedResources with
  | error e => simp [isErrorOrNamespaceContainsResources, runScan_error clientset dyn ns o e hd]
  | ok lists =>
    simp only [isErrorOrNamespaceContainsResources, runScan_ok clientset dyn ns o lists hd]
      at herr ⊢
    obtain ⟨e, he⟩ := Option.ne_none_iff_exists'.1 herr
    exact (scanKinds_err dyn ns o _ e he).1

theorem isErrorOrNamespaceContainsResources_error_implies_true_witness :
    (isErrorOrNamespaceContainsResources fakeBrokenAPIResourceListDiscovery
          oneDeploymentClient "test-namespace" ignoreSecretsOptions).2 ≠ none
      ∧ (isErrorOrNamespaceContainsResources fakeBrokenAPIResourceListDiscovery
          oneDeploymentClient "test-namespace" ignoreSecretsOptions).1 = true :=
  ⟨by decide,
    isErrorOrNamespaceContainsResources_error_implies_true fakeBrokenAPIResourceListDiscovery
      oneDeploymentClient "test-namespace" ignoreSecretsOptions (by decide)⟩

/-- C3: when the discovery call fails with error e, the scanner returns (true, e)
and issues no list call. -/
theorem isErrorOrNamespaceContainsResources_discovery_failure
    (clientset : Clientset) (dyn : DynamicClient) (ns : String) (o : Options) (e : Error)
    (hdisc : clientset.Discovery.ServerPreferredNamespacedResources = .error e) :
    isErrorOrNamespaceContainsResources clientset dyn ns o = (true, some e)
      ∧ (runScan clientset dyn ns o).calls = [] := by
  simp [isErrorOrNamespaceContainsResources, runScan_error clientset dyn ns o e hdisc]

theorem isErrorOrNamespaceContainsResources_discovery_failure_witness :
    fakeUnhappyDiscovery.Discovery.ServerPreferredNamespacedResources
        = .error ⟨"fake error from discovery"⟩
      ∧ isErrorOrNamespaceContainsResources fakeUnhappyDiscovery emptyClusterClient
          "test-namespace" ignoreSecretsOptions = (true, some ⟨"fake error from discovery"⟩)
      ∧ (runScan fakeUnhappyDiscovery emptyClusterClient "test-namespace"
          ignoreSecretsOptions).calls = [] :=
  ⟨rfl,
    isErrorOrNamespaceContainsResources_discovery_failure fakeUnhappyDiscovery
      emptyClusterClient "test-namespace" ignoreSecretsOptions _ rfl⟩

/-- C4: when discovery succeeds and the scan reaches a reported kind k whose
group-version string does not resolve, every earlier kind having resolved
without a surviving instance, the scanner returns (true, err) with err the getGVR
error of k, and the list calls issued are those of the earlier kinds only. -/
theorem isErrorOrNamespaceContainsResources_resolution_failure
    (clientset : Clientset) (dyn : DynamicClient) (ns : String) (o : Options)
    (lists : List APIResourceList) (pre post : List (String × APIResource))
    (k : String × APIResource) (e : Error)
    (hdisc : clientset.Discovery.ServerPreferredNamespacedResources = .ok lists)
    (hkinds : reportedKinds lists = pre ++ k :: post)
    (hpre : ∀ q ∈ pre, (∃ gvr, resolveKind q = (some gvr, none))
      ∧ ¬ kindHasSurvivor dyn ns o q)
    (hk : (getGVR k.2.Name (stringsSplit k.1 '/')).2 = some e) :
    isErrorOrNamespaceContainsResources clientset dyn ns o = (true, some e)
      ∧ (runScan clientset dyn ns o).calls = kindCalls ns pre := by
  have hk2 : resolveKind k = ((resolveKind k).1, some e) := by
    unfold resolveKind
    rw [← hk]
  simp [isErrorOrNamespaceContainsResources, runScan_ok clientset dyn ns o lists hdisc,
    hkinds, scanKinds_append_noSurvivor dyn ns o pre (k :: post) hpre,
    scanKinds_cons_abort dyn ns o k post _ e hk2]

theorem isErrorOrNamespaceContainsResources_resolution_failure_witness :
    mixedDiscovery.Discovery.ServerPreferredNamespacedResources = .ok mixedAnswer
      ∧ reportedKinds mixedAnswer
          = [("apps/v1", deploymentsResource)]
              ++ ("fake/broken/apps/v1", deploymentsResource)
                :: [("v1", { Name := "pods", Namespaced := true, Kind := "Pod" })]
      ∧ (∀ q ∈ [("apps/v1", deploymentsResource)],
          (∃ gvr, resolveKind q = (some gvr, none))
            ∧ ¬ kindHasSurvivor emptyClusterClient "test-namespace" ignoreSecretsOptions q)
      ∧ (getGVR deploymentsResource.Name (stringsSplit "fake/broken/apps/v1" '/')).2
          = some ⟨"gv is wrong length slice: 4"⟩
      ∧ isErrorOrNamespaceContainsResources mixedDiscovery emptyClusterClient
          "test-namespace" ignoreSecretsOptions
            = (true, some ⟨"gv is wrong length slice: 4"⟩)
      ∧ (runScan mixedDiscovery emptyClusterClient "test-namespace"
          ignoreSecretsOptions).calls
            = kindCalls "test-namespace" [("apps/v1", deploymentsResource)] :=
  have hpre : ∀ q ∈ [("apps/v1", deploymentsResource)],
      (∃ gvr, resolveKind q = (some gvr, none))
        ∧ ¬ kindHasSurvivor emptyClusterClient "test-namespace" ignoreSecretsOptions q := by
    intro q hq
    refine ⟨resolveKind_ok_of_slashCount_le_one q ?_, ?_⟩
    · rw [List.mem_singleton.1 hq]
      decide
    · rintro ⟨gvr, items, _, hl, u, hu, _⟩
      have hnil : items = [] := by
        simpa [emptyClusterClient] using hl.symm
      rw [hnil] at hu
      exact absurd hu (List.not_mem_nil u)
  ⟨rfl, rfl, hpre, by decide,
    isErrorOrNamespaceContainsResources_resolution_failure mixedDiscovery emptyClusterClient
      "test-namespace" ignoreSecretsOptions mixedAnswer [("apps/v1", deploymentsResource)]
      [("v1", { Name := "pods", Namespaced := true, Kind := "Pod" })]
      ("fake/broken/apps/v1", deploymentsResource) ⟨"gv is wrong length slice: 4"⟩
      rfl rfl hpre (by decide)⟩

/-- C5: a failing list call is swallowed: the scanner returns the same pair as
with the dynamic client in which each failing list call succeeds with an empty
list, and an error it returns is the discovery error or the getGVR error of a
reported kind, never a list error. -/
theorem isErrorOrNamespaceContainsResources_swallows_list_errors
    (clientset : Clientset) (dyn : DynamicClient) (ns : String) (o : Options) :
    isErrorOrNamespaceContainsResources clientset dyn ns o
        = isErrorOrNamespaceContainsResources clientset (swallowListErrors dyn) ns o
      ∧ ∀ e, (isErrorOrNamespaceContainsResources clientset dyn ns o).2 = some e →
          clientset.Discovery.ServerPreferredNamespacedResources = .error e
            ∨ ∃ lists, clientset.Discovery.ServerPreferredNamespacedResources = .ok lists
                ∧ ∃ l ∈ lists, ∃ r ∈ l.APIResources,
                    (getGVR r.Name (stringsSplit l.GroupVersion '/')).2 = some e := by
  cases hd : clientset.Discovery.ServerPreferredNamespacedResources with
  | error e0 =>
    refine ⟨by simp [isErrorOrNamespaceContainsResources, runScan, hd], fun e he => ?_⟩
    left
    simpa [isErrorOrNamespaceContainsResources, runScan, hd] using he
  | ok lists =>
    refine ⟨?_, fun e he => ?_⟩
    · simp only [isErrorOrNamespaceContainsResources, runScan_ok _ _ ns o lists hd]
      rw [← scanKinds_swallowListErrors]
    · right
      simp only [isErrorOrNamespaceContainsResources, runScan_ok _ _ ns o lists hd] at he
      obtain ⟨_, k, hmem, hk⟩ := scanKinds_err dyn ns o _ e he
      obtain ⟨l, hl, r, hr, rfl⟩ := (mem_reportedKinds lists k).1 hmem
      exact ⟨lists, rfl, l, hl, r, hr, hk⟩

/-- C6, the claim refuted: with the happy discovery answer and the list call of
its one kind failing, the call is issued, it fails, and the scanner does not
return true with a non-nil error: it returns (false, nil). -/
theorem isErrorOrNamespaceContainsResources_list_failure_counterexample :
    (runScan fakeHappyDiscovery forcedErrorClient "test-namespace" ignoreSecretsOptions).calls
        = [⟨deploymentsGVR, "test-namespace"⟩]
      ∧ forcedErrorClient.ListResource deploymentsGVR "test-namespace"
        = .error ⟨"forced error"⟩
      ∧ isErrorOrNamespaceContainsResources fakeHappyDiscovery forcedErrorClient
          "test-namespace" ignoreSecretsOptions = (false, none)
      ∧ ¬ ((isErrorOrNamespaceContainsResources fakeHappyDiscovery forcedErrorClient
              "test-namespace" ignoreSecretsOptions).1 = true
            ∧ (isErrorOrNamespaceContainsResources fakeHappyDiscovery forcedErrorClient
              "test-namespace" ignoreSecretsOptions).2 ≠ none) :=
  ⟨by decide, rfl, by decide, by decide⟩

/-- C6 as amended: when discovery succeeds and every reported kind resolves, a
listing failure does not make the scanner return true with a non-nil error.
Whichever list calls fail: the result is what it would be had each failing list
call succeeded with an empty list; the returned error is nil; the boolean is true
if and only if the list call of some reported kind succeeds with a surviving
instance; and if the list call of every reported kind fails, the result is
(false, nil), each kind having been tried. -/
theorem isErrorOrNamespaceContainsResources_list_failure_passed_over
    (clientset : Clientset) (dyn : DynamicClient) (ns : String) (o : Options)
    (lists : List APIResourceList)
    (hdisc : clientset.Discovery.ServerPreferredNamespacedResources = .ok lists)
    (hres : ∀ l ∈ lists, ∀ r ∈ l.APIResources, slashCount l.GroupVersion ≤ 1) :
    isErrorOrNamespaceContainsResources clientset dyn ns o
        = isErrorOrNamespaceContainsResources clientset (swallowListErrors dyn) ns o
      ∧ (isErrorOrNamespaceContainsResources clientset dyn ns o).2 = none
      ∧ ((isErrorOrNamespaceContainsResources clientset dyn ns o).1 = true
          ↔ ∃ l ∈ lists, ∃ r ∈ l.APIResources, kindHasSurvivor dyn ns o (l.GroupVersion, r))
      ∧ ((∀ l ∈ lists, ∀ r ∈ l.APIResources, ∀ gvr,
            getGVR r.Name (stringsSplit l.GroupVersion '/') = (some gvr, none) →
              ∃ e, dyn.ListResource gvr ns = .error e) →
          isErrorOrNamespaceContainsResources clientset dyn ns o = (false, none)
            ∧ (runScan clientset dyn ns o).calls = kindCalls ns (reportedKinds lists)) := by
  have hk : ∀ k ∈ reportedKinds lists, ∃ gvr, resolveKind k = (some gvr, none) := by
    intro k hmem
    obtain ⟨l, hl, r, hr, rfl⟩ := (mem_reportedKinds lists k).1 hmem
    exact resolveKind_ok_of_slashCount_le_one _ (hres l hl r hr)
  have hex : (∃ k ∈ reportedKinds lists, kindHasSurvivor dyn ns o k)
      ↔ ∃ l ∈ lists, ∃ r ∈ l.APIResources, kindHasSurvivor dyn ns o (l.GroupVersion, r) := by
    constructor
    · rintro ⟨k, hmem, hs⟩
      obtain ⟨l, hl, r, hr, rfl⟩ := (mem_reportedKinds lists k).1 hmem
      exact ⟨l, hl, r, hr, hs⟩
    · rintro ⟨l, hl, r, hr, hs⟩
      exact ⟨_, (mem_reportedKinds lists _).2 ⟨l, hl, r, hr, rfl⟩, hs⟩
  have hscan := scanKinds_resolving dyn ns o (reportedKinds lists) hk
  have hrun : isErrorOrNamespaceContainsResources clientset dyn ns o
      = (scanKinds dyn ns o (reportedKinds lists)).1 := by
    simp [isErrorOrNamespaceContainsResources, runScan_ok clientset dyn ns o lists hdisc]
  refine ⟨?_, ?_, ?_, ?_⟩
  · simp only [isErrorOrNamespaceContainsResources, runScan_ok _ _ ns o lists hdisc]
    rw [← scanKinds_swallowListErrors]
  · rw [hrun]
    by_cases hs : ∃ k ∈ reportedKinds lists, kindHasSurvivor dyn ns o k
    · rw [hscan.1 hs]
    · rw [hscan.2 hs]
  · rw [hrun, ← hex]
    constructor
    · intro h
      by_contra hno
      rw [hscan.2 hno] at h
      simp at h
    · intro hs
      rw [hscan.1 hs]
  · intro hfail
    have hpre : ∀ k ∈ reportedKinds lists, (∃ gvr, resolveKind k = (some gvr, none))
        ∧ ¬ kindHasSurvivor dyn ns o k := by
      intro k hmem
      refine ⟨hk k hmem, ?_⟩
      obtain ⟨l, hl, r, hr, rfl⟩ := (mem_reportedKinds lists k).1 hmem
      rintro ⟨gvr, items, hkr, hlist, _⟩
      obtain ⟨e, he⟩ := hfail l hl r hr gvr hkr
      rw [he] at hlist
      cases hlist
    have h := scanKinds_append_noSurvivor dyn ns o (reportedKinds lists) [] hpre
    rw [List.append_nil] at h
    simp [isErrorOrNamespaceContainsResources, runScan_ok clientset dyn ns o lists hdisc, h,
      scanKinds]

theorem isErrorOrNamespaceContainsResources_list_failure_passed_over_witness :
    deploymentsAndPodsDiscovery.Discovery.ServerPreferredNamespacedResources
        = .ok deploymentsAndPodsAnswer
      ∧ (∀ l ∈ deploymentsAndPodsAnswer, ∀ r ∈ l.APIResources, slashCount l.GroupVersion ≤ 1)
      ∧ deploymentsFailClient.ListResource deploymentsGVR "test-namespace"
        = .error ⟨"forced error"⟩
      ∧ deploymentsFailClient.ListResource podsGVR "test-namespace" = .ok []
      ∧ (runScan deploymentsAndPodsDiscovery deploymentsFailClient "test-namespace"
          ignoreSecretsOptions)
        = { found := false, err := none,
            calls := [⟨deploymentsGVR, "test-namespace"⟩, ⟨podsGVR, "test-namespace"⟩] }
      ∧ isErrorOrNamespaceContainsResources deploymentsAndPodsDiscovery deploymentsFailClient
          "test-namespace" ignoreSecretsOptions
        = isErrorOrNamespaceContainsResources deploymentsAndPodsDiscovery
            (swallowListErrors deploymentsFailClient) "test-namespace" ignoreSecretsOptions
      ∧ (isErrorOrNamespaceContainsResources deploymentsAndPodsDiscovery deploymentsFailClient
          "test-namespace" ignoreSecretsOptions).2 = none
      ∧ ((isErrorOrNamespaceContainsResources deploymentsAndPodsDiscovery
            deploymentsFailClient "test-namespace" ignoreSecretsOptions).1 = true
          ↔ ∃ l ∈ deploymentsAndPodsAnswer, ∃ r ∈ l.APIResources,
              kindHasSurvivor deploymentsFailClient "test-namespace" ignoreSecretsOptions
                (l.GroupVersion, r))
      ∧ ((∀ l ∈ deploymentsAndPodsAnswer, ∀ r ∈ l.APIResources, ∀ gvr,
            getGVR r.Name (stringsSplit l.GroupVersion '/') = (some gvr, none) →
              ∃ e, deploymentsFailClient.ListResource gvr "test-namespace" = .error e) →
          isErrorOrNamespaceContainsResources deploymentsAndPodsDiscovery
              deploymentsFailClient "test-namespace" ignoreSecretsOptions = (false, none)
            ∧ (runScan deploymentsAndPodsDiscovery deploymentsFailClient "test-namespace"
                ignoreSecretsOptions).calls
              = kindCalls "test-namespace" (reportedKinds deploymentsAndPodsAnswer)) :=
  ⟨rfl, by decide, rfl, rfl, by decide,
    isErrorOrNamespaceContainsResources_list_failure_passed_over deploymentsAndPodsDiscovery
      deploymentsFailClient "test-namespace" ignoreSecretsOptions deploymentsAndPodsAnswer
      rfl (by decide)⟩

/-- C7: the scan short-circuits on the first match: if the reported kinds are
pre, then k, then post, every kind of pre resolves and k lists successfully with
a surviving instance, the scanner returns (true, nil) whatever post is, and the
list calls issued are an initial run of those of pre and k: no kind of post is
listed. -/
theorem isErrorOrNamespaceContainsResources_short_circuit
    (clientset : Clientset) (dyn : DynamicClient) (ns : String) (o : Options)
    (lists : List APIResourceList) (pre post : List (String × APIResource))
    (k : String × APIResource)
    (hdisc : clientset.Discovery.ServerPreferredNamespacedResources = .ok lists)
    (hkinds : reportedKinds lists = pre ++ k :: post)
    (hpre : ∀ q ∈ pre, ∃ gvr, resolveKind q = (some gvr, none))
    (hk : kindHasSurvivor dyn ns o k) :
    isErrorOrNamespaceContainsResources clientset dyn ns o = (true, none)
      ∧ (runScan clientset dyn ns o).calls <+: kindCalls ns (pre ++ [k]) := by
  have h := scanKinds_shortCircuit dyn ns o pre post k hpre hk
  simp only [isErrorOrNamespaceContainsResources, runScan_ok clientset dyn ns o lists hdisc,
    hkinds]
  exact ⟨h.1, h.2⟩

theorem isErrorOrNamespaceContainsResources_short_circuit_witness :
    mixedDiscovery.Discovery.ServerPreferredNamespacedResources = .ok mixedAnswer
      ∧ reportedKinds mixedAnswer
          = [] ++ ("apps/v1", deploymentsResource)
              :: [("fake/broken/apps/v1", deploymentsResource),
                  ("v1", { Name := "pods", Namespaced := true, Kind := "Pod" })]
      ∧ (∀ q ∈ ([] : List (String × APIResource)), ∃ gvr, resolveKind q = (some gvr, none))
      ∧ kindHasSurvivor oneDeploymentClient "test-namespace" ignoreSecretsOptions
          ("apps/v1", deploymentsResource)
      ∧ isErrorOrNamespaceContainsResources mixedDiscovery oneDeploymentClient
          "test-namespace" ignoreSecretsOptions = (true, none)
      ∧ (runScan mixedDiscovery oneDeploymentClient "test-namespace"
          ignoreSecretsOptions).calls
            <+: kindCalls "test-namespace" ([] ++ [("apps/v1", deploymentsResource)]) :=
  have hk : kindHasSurvivor oneDeploymentClient "test-namespace" ignoreSecretsOptions
      ("apps/v1", deploymentsResource) :=
    ⟨deploymentsGVR, [{ GetNamespace := "test-namespace", GetName := "test-object" }],
      by decide, rfl,
      { GetNamespace := "test-namespace", GetName := "test-object" }, by decide, by decide⟩
  ⟨rfl, rfl, fun _ hq => absurd hq (List.not_mem_nil _), hk,
    isErrorOrNamespaceContainsResources_short_circuit mixedDiscovery oneDeploymentClient
      "test-namespace" ignoreSecretsOptions mixedAnswer []
      [("fake/broken/apps/v1", deploymentsResource),
        ("v1", { Name := "pods", Namespaced := true, Kind := "Pod" })]
      ("apps/v1", deploymentsResource) rfl rfl
      (fun _ hq => absurd hq (List.not_mem_nil _)) hk⟩

/-- C8: when discovery succeeds and reports no resource kind (no group, or groups
whose APIResources are all empty, whatever their GroupVersion strings), the
scanner returns (false, nil), and it issues no list call. -/
theorem isErrorOrNamespaceContainsResources_no_kinds
    (clientset : Clientset) (dyn : DynamicClient) (ns : String) (o : Options)
    (lists : List APIResourceList)
    (hdisc : clientset.Discovery.ServerPreferredNamespacedResources = .ok lists)
    (hempty : ∀ l ∈ lists, l.APIResources = []) :
    isErrorOrNamespaceContainsResources clientset dyn ns o = (false, none)
      ∧ (runScan clientset dyn ns o).calls = [] := by
  simp [isErrorOrNamespaceContainsResources, runScan_ok clientset dyn ns o lists hdisc,
    reportedKinds_eq_nil lists hempty, scanKinds]

theorem isErrorOrNamespaceContainsResources_no_kinds_witness :
    noKindsDiscovery.Discovery.ServerPreferredNamespacedResources = .ok noKindsAnswer
      ∧ (∀ l ∈ noKindsAnswer, l.APIResources = [])
      ∧ isErrorOrNamespaceContainsResources noKindsDiscovery oneDeploymentClient
          "test-namespace" ignoreSecretsOptions = (false, none)
      ∧ (runScan noKindsDiscovery oneDeploymentClient "test-namespace"
          ignoreSecretsOptions).calls = [] :=
  ⟨rfl, by decide,
    isErrorOrNamespaceContainsResources_no_kinds noKindsDiscovery oneDeploymentClient
      "test-namespace" ignoreSecretsOptions noKindsAnswer rfl (by decide)⟩

/-! ## The resource-kind resolver: specification statements -/

/-- C9: getGVR returns an error if and only if len(splitGV) is neither 1 nor 2;
exactly then the error is non-nil and the pointer nil, and exactly for length 1
or 2 the error is nil and the pointer non-nil. -/
theorem getGVR_error_iff_wrong_length (name : String) (splitGV : List String) :
    ((getGVR name splitGV).2 ≠ none ↔ splitGV.length ≠ 1 ∧ splitGV.length ≠ 2)
      ∧ (splitGV.length ≠ 1 ∧ splitGV.length ≠ 2
          ↔ (getGVR name splitGV).2 ≠ none ∧ (getGVR name splitGV).1 = none)
      ∧ (splitGV.length = 1 ∨ splitGV.length = 2
          ↔ (getGVR name splitGV).2 = none ∧ (getGVR name splitGV).1 ≠ none) := by
  match splitGV with
  | [] => simp [getGVR]
  | [_] => simp [getGVR]
  | [_, _] => simp [getGVR]
  | _ :: _ :: _ :: _ => simp [getGVR]

/-- C10: for every name and every one-element slice [v], getGVR returns the triple
with empty Group, Version v and Resource name, with a nil error. -/
theorem getGVR_one_part (name v : String) :
    getGVR name [v] = (some { Group := "", Version := v, Resource := name }, none) :=
  rfl

/-- C11: for every name and every two-element slice [g, v], getGVR returns the
triple with Group g, Version v and Resource name, with a nil error. -/
theorem getGVR_two_parts (name g v : String) :
    getGVR name [g, v] = (some { Group := g, Version := v, Resource := name }, none) :=
  rfl

/-! ## The ignore policies: lemmas -/

theorem ignoreResourceType_eq_true_iff (resource : String) (ignoreResourceTypes : List String) :
    ignoreResourceType resource ignoreResourceTypes = true ↔ resource ∈ ignoreResourceTypes := by
  induction ignoreResourceTypes with
  | nil => simp [ignoreResourceType]
  | cons t rest ih =>
    unfold ignoreResourceType
    by_cases h : resource = t
    · simp [h]
    · simp [h, ih]

theorem ignorePredefinedResource_eq_true_iff (gr : GenericResource) :
    ignorePredefinedResource gr = true
      ↔ (gr.GVR.Resource = "configmaps" ∧ gr.GVR.Version = "v1"
            ∧ gr.NamespacedName.Name = "kube-root-ca.crt")
        ∨ (gr.GVR.Resource = "serviceaccounts" ∧ gr.GVR.Version = "v1"
            ∧ gr.NamespacedName.Name = "default")
        ∨ gr.GVR.Resource = "events" := by
  unfold ignorePredefinedResource
  by_cases h1 : gr.GVR.Resource = "configmaps" ∧ gr.GVR.Version = "v1"
      ∧ gr.NamespacedName.Name = "kube-root-ca.crt"
  · simp [h1]
  · by_cases h2 : gr.GVR.Resource = "serviceaccounts" ∧ gr.GVR.Version = "v1"
        ∧ gr.NamespacedName.Name = "default"
    · simp [h2]
    · by_cases h3 : gr.GVR.Resource = "events"
      · simp [h3]
      · rw [if_neg h1, if_neg h2, if_neg h3]
        simp [h1, h2, h3]

theorem survives_eq_true_iff (gvr : GroupVersionResource) (o : Options) (u : Unstructured) :
    survives gvr o u = true
      ↔ ignorePredefinedResource
            { GVR := gvr, NamespacedName := { Namespace := u.GetNamespace, Name := u.GetName } }
          = false
        ∧ gvr.Resource ∉ o.IgnoreResourceTypes := by
  unfold survives
  rw [Bool.and_eq_true, Bool.not_eq_true', Bool.not_eq_true',
    ← ignoreResourceType_eq_true_iff, Bool.not_eq_true]

theorem isNamespaceNotEmpty_filter_predefined (gvr : GroupVersionResource)
    (items : List Unstructured) (o : Options) :
    isNamespaceNotEmpty gvr items o
      = isNamespaceNotEmpty gvr
          (items.filter (fun u => !ignorePredefinedResource
            { GVR := gvr, NamespacedName := { Namespace := u.GetNamespace, Name := u.GetName } }))
          o := by
  induction items with
  | nil => rfl
  | cons u rest ih =>
    by_cases h : ignorePredefinedResource
        { GVR := gvr, NamespacedName := { Namespace := u.GetNamespace, Name := u.GetName } }
          = true
    · rw [List.filter_cons_of_neg (by simp [h]), ← ih]
      simp [isNamespaceNotEmpty, h]
    · rw [List.filter_cons_of_pos (by simpa using h)]
      simp only [isNamespaceNotEmpty, h, ih]

theorem resolveKind_resource (k : String × APIResource) (gvr : GroupVersionResource)
    (h : resolveKind k = (some gvr, none)) : gvr.Resource = k.2.Name := by
  unfold resolveKind getGVR at h
  split at h
  · simp only [Prod.mk.injEq, Option.some.injEq, and_true] at h
    rw [← h]
  · simp only [Prod.mk.injEq, Option.some.injEq, and_true] at h
    rw [← h]
  · simp at h

/-! ## The ignore policies: specification statements -/

/-- C12: ignorePredefinedResource is true if and only if the resource is the
configmap kube-root-ca.crt of version v1, the serviceaccount default of version
v1, or any events resource; the result does not depend on the namespace, and for
events it depends on neither group, version, name nor namespace. -/
theorem ignorePredefinedResource_true_iff (gr : GenericResource) :
    (ignorePredefinedResource gr = true
        ↔ (gr.GVR.Resource = "configmaps" ∧ gr.GVR.Version = "v1"
              ∧ gr.NamespacedName.Name = "kube-root-ca.crt")
          ∨ (gr.GVR.Resource = "serviceaccounts" ∧ gr.GVR.Version = "v1"
              ∧ gr.NamespacedName.Name = "default")
          ∨ gr.GVR.Resource = "events")
      ∧ (∀ ns : String,
          ignorePredefinedResource
              { GVR := gr.GVR
                NamespacedName := { Namespace := ns, Name := gr.NamespacedName.Name } }
            = ignorePredefinedResource gr)
      ∧ (∀ g v n ns : String,
          ignorePredefinedResource
              { GVR := { Group := g, Version := v, Resource := "events" }
                NamespacedName := { Namespace := ns, Name := n } }
            = true) := by
  refine ⟨ignorePredefinedResource_eq_true_iff gr, fun ns => rfl, fun g v n ns => ?_⟩
  simp [ignorePredefinedResource]

/-- C13, the claim refuted: the configmap kube-root-ca.crt and the serviceaccount
default of version v1 in the non-empty group example.com are both caught. -/
theorem ignorePredefinedResource_nonempty_group_counterexample :
    "example.com" ≠ ""
      ∧ ignorePredefinedResource
          { GVR := { Group := "example.com", Version := "v1", Resource := "configmaps" }
            NamespacedName := { Namespace := "abc", Name := "kube-root-ca.crt" } } = true
      ∧ ignorePredefinedResource
          { GVR := { Group := "example.com", Version := "v1", Resource := "serviceaccounts" }
            NamespacedName := { Namespace := "abc", Name := "default" } } = true := by
  decide

/-- C13 as amended: the two named resources are matched by equality of Resource,
Version and Name only, the Group is not compared: a resource with Resource
configmaps (or serviceaccounts), Version v1 and the matching name is caught
whatever its Group, and no result of ignorePredefinedResource changes with the
Group. -/
theorem ignorePredefinedResource_ignores_group (gr : GenericResource)
    (h : (gr.GVR.Resource = "configmaps" ∧ gr.GVR.Version = "v1"
            ∧ gr.NamespacedName.Name = "kube-root-ca.crt")
          ∨ (gr.GVR.Resource = "serviceaccounts" ∧ gr.GVR.Version = "v1"
            ∧ gr.NamespacedName.Name = "default")) :
    ignorePredefinedResource gr = true
      ∧ ∀ (other : GenericResource) (g : String),
          ignorePredefinedResource
              { GVR := { Group := g, Version := other.GVR.Version,
                         Resource := other.GVR.Resource }
                NamespacedName := other.NamespacedName }
            = ignorePredefinedResource other := by
  refine ⟨(ignorePredefinedResource_eq_true_iff gr).2 ?_, fun other g => rfl⟩
  rcases h with h | h
  · exact Or.inl h
  · exact Or.inr (Or.inl h)

theorem ignorePredefinedResource_ignores_group_witness :
    ((("configmaps" : String) = "configmaps" ∧ ("v1" : String) = "v1"
            ∧ ("kube-root-ca.crt" : String) = "kube-root-ca.crt")
        ∨ (("configmaps" : String) = "serviceaccounts" ∧ ("v1" : String) = "v1"
            ∧ ("kube-root-ca.crt" : String) = "default"))
      ∧ ignorePredefinedResource
          { GVR := { Group := "example.com", Version := "v1", Resource := "configmaps" }
            NamespacedName := { Namespace := "abc", Name := "kube-root-ca.crt" } } = true
      ∧ ∀ (other : GenericResource) (g : String),
          ignorePredefinedResource
              { GVR := { Group := g, Version := other.GVR.Version,
                         Resource := other.GVR.Resource }
                NamespacedName := other.NamespacedName }
            = ignorePredefinedResource other :=
  ⟨Or.inl ⟨rfl, rfl, rfl⟩,
    ignorePredefinedResource_ignores_group
      { GVR := { Group := "example.com", Version := "v1", Resource := "configmaps" }
        NamespacedName := { Namespace := "abc", Name := "kube-root-ca.crt" } }
      (Or.inl ⟨rfl, rfl, rfl⟩)⟩

/-- C14: ignoreResourceType is true if and only if some element of the list is
equal to the resource string; for the empty list it is false. -/
theorem ignoreResourceType_true_iff (resource : String) (ignoreResourceTypes : List String) :
    (ignoreResourceType resource ignoreResourceTypes = true
        ↔ ∃ t ∈ ignoreResourceTypes, t = resource)
      ∧ ignoreResourceType resource [] = false := by
  refine ⟨?_, rfl⟩
  rw [ignoreResourceType_eq_true_iff]
  simp

/-- C15: isNamespaceNotEmpty is true if and only if the list holds an item whose
GenericResource (the gvr with the namespace and name of the item) is not caught
by ignorePredefinedResource and gvr.Resource is not in IgnoreResourceTypes; for
the empty list it is false. -/
theorem isNamespaceNotEmpty_true_iff (gvr : GroupVersionResource)
    (items : List Unstructured) (filterOpts : Options) :
    (isNamespaceNotEmpty gvr items filterOpts = true
        ↔ ∃ u ∈ items,
            ignorePredefinedResource
                { GVR := gvr
                  NamespacedName := { Namespace := u.GetNamespace, Name := u.GetName } }
              = false
            ∧ gvr.Resource ∉ filterOpts.IgnoreResourceTypes)
      ∧ isNamespaceNotEmpty gvr [] filterOpts = false := by
  refine ⟨?_, rfl⟩
  rw [isNamespaceNotEmpty_iff]
  constructor
  · rintro ⟨u, hu, hs⟩
    exact ⟨u, hu, (survives_eq_true_iff gvr filterOpts u).1 hs⟩
  · rintro ⟨u, hu, hs⟩
    exact ⟨u, hu, (survives_eq_true_iff gvr filterOpts u).2 hs⟩

/-- C16: the predefined-ignore list is not overridden by options: whatever the
gvr and the options, isNamespaceNotEmpty is false on a list all of whose items
ignorePredefinedResource catches, and putting a caught item into a list at any
place, taking it out, or dropping every caught item leaves the result as it was. -/
theorem isNamespaceNotEmpty_predefined_not_overridden (gvr : GroupVersionResource)
    (filterOpts : Options) (items before after : List Unstructured) (u : Unstructured)
    (hall : ∀ v ∈ items,
      ignorePredefinedResource
        { GVR := gvr, NamespacedName := { Namespace := v.GetNamespace, Name := v.GetName } }
          = true)
    (hu : ignorePredefinedResource
        { GVR := gvr, NamespacedName := { Namespace := u.GetNamespace, Name := u.GetName } }
          = true) :
    isNamespaceNotEmpty gvr items filterOpts = false
      ∧ isNamespaceNotEmpty gvr (before ++ u :: after) filterOpts
          = isNamespaceNotEmpty gvr (before ++ after) filterOpts
      ∧ isNamespaceNotEmpty gvr before filterOpts
          = isNamespaceNotEmpty gvr
              (before.filter (fun v => !ignorePredefinedResource
                { GVR := gvr
                  NamespacedName := { Namespace := v.GetNamespace, Name := v.GetName } }))
              filterOpts := by
  refine ⟨?_, ?_, isNamespaceNotEmpty_filter_predefined gvr before filterOpts⟩
  · cases hn : isNamespaceNotEmpty gvr items filterOpts with
    | false => rfl
    | true =>
      obtain ⟨v, hv, hs⟩ := (isNamespaceNotEmpty_iff gvr items filterOpts).1 hn
      have h1 := ((survives_eq_true_iff gvr filterOpts v).1 hs).1
      rw [hall v hv] at h1
      cases h1
  · rw [isNamespaceNotEmpty_filter_predefined gvr (before ++ u :: after),
      isNamespaceNotEmpty_filter_predefined gvr (before ++ after),
      List.filter_append, List.filter_append, List.filter_cons_of_neg (by simp [hu])]

theorem isNamespaceNotEmpty_predefined_not_overridden_witness :
    (∀ v ∈ [({ GetNamespace := "cde", GetName := "default" } : Unstructured)],
        ignorePredefinedResource
          { GVR := { Group := "", Version := "v1", Resource := "serviceaccounts" }
            NamespacedName := { Namespace := v.GetNamespace, Name := v.GetName } } = true)
      ∧ ignorePredefinedResource
          { GVR := { Group := "", Version := "v1", Resource := "serviceaccounts" }
            NamespacedName := { Namespace := "cde", Name := "default" } } = true
      ∧ isNamespaceNotEmpty { Group := "", Version := "v1", Resource := "serviceaccounts" }
          [{ GetNamespace := "cde", GetName := "default" }] {} = false
      ∧ isNamespaceNotEmpty { Group := "", Version := "v1", Resource := "serviceaccounts" }
          ([{ GetNamespace := "cde", GetName := "builder" }]
            ++ { GetNamespace := "cde", GetName := "default" } :: []) {}
          = isNamespaceNotEmpty { Group := "", Version := "v1", Resource := "serviceaccounts" }
              ([{ GetNamespace := "cde", GetName := "builder" }] ++ []) {}
      ∧ isNamespaceNotEmpty { Group := "", Version := "v1", Resource := "serviceaccounts" }
          [{ GetNamespace := "cde", GetName := "builder" }] {}
          = isNamespaceNotEmpty { Group := "", Version := "v1", Resource := "serviceaccounts" }
              ([({ GetNamespace := "cde", GetName := "builder" } : Unstructured)].filter
                (fun v => !ignorePredefinedResource
                  { GVR := { Group := "", Version := "v1", Resource := "serviceaccounts" }
                    NamespacedName := { Namespace := v.GetNamespace, Name := v.GetName } }))
              {} :=
  ⟨by decide, by decide,
    isNamespaceNotEmpty_predefined_not_overridden
      { Group := "", Version := "v1", Resource := "serviceaccounts" } {}
      [{ GetNamespace := "cde", GetName := "default" }]
      [{ GetNamespace := "cde", GetName := "builder" }] []
      { GetNamespace := "cde", GetName := "default" } (by decide) (by decide)⟩

/-- C17: a user-ignored kind never makes a namespace non-empty: for a gvr whose
Resource is in IgnoreResourceTypes isNamespaceNotEmpty is false on every list;
and when discovery succeeds, every reported kind resolves, and each reported kind
is user-ignored or has no instance in the namespace, the scanner returns
(false, nil). -/
theorem isNamespaceNotEmpty_ignored_kind_false
    (clientset : Clientset) (dyn : DynamicClient) (ns : String) (filterOpts : Options)
    (lists : List APIResourceList) (gvr : GroupVersionResource) (items : List Unstructured)
    (hmem : gvr.Resource ∈ filterOpts.IgnoreResourceTypes)
    (hdisc : clientset.Discovery.ServerPreferredNamespacedResources = .ok lists)
    (hres : ∀ l ∈ lists, ∀ r ∈ l.APIResources, slashCount l.GroupVersion ≤ 1)
    (honly : ∀ l ∈ lists, ∀ r ∈ l.APIResources,
      r.Name ∈ filterOpts.IgnoreResourceTypes
        ∨ ∀ g found, getGVR r.Name (stringsSplit l.GroupVersion '/') = (some g, none) →
            dyn.ListResource g ns = .ok found → found = []) :
    isNamespaceNotEmpty gvr items filterOpts = false
      ∧ isErrorOrNamespaceContainsResources clientset dyn ns filterOpts = (false, none) := by
  constructor
  · cases hn : isNamespaceNotEmpty gvr items filterOpts with
    | false => rfl
    | true =>
      obtain ⟨v, _, hs⟩ := (isNamespaceNotEmpty_iff gvr items filterOpts).1 hn
      exact absurd hmem ((survives_eq_true_iff gvr filterOpts v).1 hs).2
  · have hk : ∀ k ∈ reportedKinds lists, ∃ g, resolveKind k = (some g, none) := by
      intro k hk
      obtain ⟨l, hl, r, hr, rfl⟩ := (mem_reportedKinds lists k).1 hk
      exact resolveKind_ok_of_slashCount_le_one _ (hres l hl r hr)
    have hno : ¬ ∃ k ∈ reportedKinds lists, kindHasSurvivor dyn ns filterOpts k := by
      rintro ⟨k, hk, g, found, hg, hlist, v, hv, hs⟩
      obtain ⟨l, hl, r, hr, rfl⟩ := (mem_reportedKinds lists k).1 hk
      rcases honly l hl r hr with hign | hempty
      · have hres2 := resolveKind_resource _ g hg
        simp only at hres2
        rw [← hres2] at hign
        exact absurd hign ((survives_eq_true_iff g filterOpts v).1 hs).2
      · rw [hempty g found hg hlist] at hv
        exact absurd hv (List.not_mem_nil v)
    have h := (scanKinds_resolving dyn ns filterOpts (reportedKinds lists) hk).2 hno
    simp [isErrorOrNamespaceContainsResources, runScan_ok clientset dyn ns filterOpts lists hdisc, h]

theorem isNamespaceNotEmpty_ignored_kind_false_witness :
    deploymentsGVR.Resource ∈ ({ IgnoreResourceTypes := ["deployments"] } : Options).IgnoreResourceTypes
      ∧ fakeHappyDiscovery.Discovery.ServerPreferredNamespacedResources = .ok happyAnswer
      ∧ (∀ l ∈ happyAnswer, ∀ r ∈ l.APIResources, slashCount l.GroupVersion ≤ 1)
      ∧ (∀ l ∈ happyAnswer, ∀ r ∈ l.APIResources,
          r.Name ∈ ({ IgnoreResourceTypes := ["deployments"] } : Options).IgnoreResourceTypes
            ∨ ∀ g found, getGVR r.Name (stringsSplit l.GroupVersion '/') = (some g, none) →
                oneDeploymentClient.ListResource g "test-namespace" = .ok found → found = [])
      ∧ isNamespaceNotEmpty deploymentsGVR
          [{ GetNamespace := "test-namespace", GetName := "test-object" }]
          { IgnoreResourceTypes := ["deployments"] } = false
      ∧ isErrorOrNamespaceContainsResources fakeHappyDiscovery oneDeploymentClient
          "test-namespace" { IgnoreResourceTypes := ["deployments"] } = (false, none) :=
  have honly : ∀ l ∈ happyAnswer, ∀ r ∈ l.APIResources,
      r.Name ∈ ({ IgnoreResourceTypes := ["deployments"] } : Options).IgnoreResourceTypes
        ∨ ∀ g found, getGVR r.Name (stringsSplit l.GroupVersion '/') = (some g, none) →
            oneDeploymentClient.ListResource g "test-namespace" = .ok found → found = [] := by
    intro l hl r hr
    left
    rw [List.mem_singleton.1 hl] at hr
    rw [List.mem_singleton.1 hr]
    decide
  ⟨by decide, rfl, by decide, honly,
    isNamespaceNotEmpty_ignored_kind_false fakeHappyDiscovery oneDeploymentClient
      "test-namespace" { IgnoreResourceTypes := ["deployments"] } happyAnswer deploymentsGVR
      [{ GetNamespace := "test-namespace", GetName := "test-object" }]
      (by decide) rfl (by decide) honly⟩

/-! ## The filter chain and processNamespaces: lemmas -/

theorem ApplyFilters_eq_any {Obj : Type} (object : Obj) (opts : Options)
    (funcs : List (FilterFunction Obj)) :
    ApplyFilters object opts funcs = funcs.any (fun f => f object opts) := by
  induction funcs with
  | nil => rfl
  | cons f rest ih =>
    unfold ApplyFilters
    cases hf : f object opts <;> simp [hf, ih]

theorem ApplyFilters_eq_true_iff {Obj : Type} (object : Obj) (opts : Options)
    (funcs : List (FilterFunction Obj)) :
    ApplyFilters object opts funcs = true ↔ ∃ f ∈ funcs, f object opts = true := by
  rw [ApplyFilters_eq_any, List.any_eq_true]

/-- The loop of processNamespaces when no scan it makes returns an error. -/
theorem processNamespacesLoop_of_no_error (fs : NamespaceFilters) (clientset : Clientset)
    (dyn : DynamicClient) (o : Options) (namespaces : List Namespace)
    (hnoerr : ∀ n ∈ namespaces, ApplyFilters n o (namespaceFilterChain fs) = false →
      (isErrorOrNamespaceContainsResources (clientset.duringScan n.Name) dyn n.Name o).2
        = none)
    (acc : List ResourceInfo) :
    processNamespacesLoop fs clientset dyn o namespaces acc
      = { unused := acc ++ (namespaces.filter (fun n =>
              !ApplyFilters n o (namespaceFilterChain fs)
                && decide (isErrorOrNamespaceContainsResources (clientset.duringScan n.Name)
                    dyn n.Name o = (false, none)))).map
              (fun n => { Name := n.Name, Reason := "unused namespace" })
          err := none
          scanned := (namespaces.filter (fun n =>
              !ApplyFilters n o (namespaceFilterChain fs))).map (fun n => n.Name) } := by
  induction namespaces generalizing acc with
  | nil => simp [processNamespacesLoop]
  | cons n rest ih =>
    have ih2 := ih (fun m hm => hnoerr m (List.mem_cons_of_mem _ hm))
    unfold processNamespacesLoop
    by_cases hx : ApplyFilters n o (namespaceFilterChain fs) = true
    · simp [hx, ih2]
    · have hx2 : ApplyFilters n o (namespaceFilterChain fs) = false := by simpa using hx
      have he := hnoerr n (List.mem_cons_self _ _) hx2
      rcases hscan : isErrorOrNamespaceContainsResources (clientset.duringScan n.Name) dyn
        n.Name o with ⟨b, e⟩
      rw [hscan] at he
      simp only at he
      subst he
      cases b <;> simp [hx2, hscan, ih2]

/-! ## The filter chain and processNamespaces: specification statements -/

/-- C19: ApplyFilters is the logical OR of the predicates applied to the object
and the options: it is true if and only if some predicate of the list is; for the
empty list it is false; and the result is the same for every reordering of the
list. -/
theorem ApplyFilters_is_or {Obj : Type} (object : Obj) (opts : Options)
    (funcs : List (FilterFunction Obj)) :
    ApplyFilters object opts funcs = funcs.any (fun f => f object opts)
      ∧ (ApplyFilters object opts funcs = true ↔ ∃ f ∈ funcs, f object opts = true)
      ∧ ApplyFilters object opts ([] : List (FilterFunction Obj)) = false
      ∧ ∀ reordered : List (FilterFunction Obj), funcs.Perm reordered →
          ApplyFilters object opts reordered = ApplyFilters object opts funcs := by
  refine ⟨ApplyFilters_eq_any object opts funcs, ApplyFilters_eq_true_iff object opts funcs,
    rfl, fun reordered hperm => ?_⟩
  rw [Bool.eq_iff_iff, ApplyFilters_eq_true_iff, ApplyFilters_eq_true_iff]
  constructor
  · rintro ⟨f, hf, h⟩
    exact ⟨f, hperm.mem_iff.2 hf, h⟩
  · rintro ⟨f, hf, h⟩
    exact ⟨f, hperm.mem_iff.1 hf, h⟩

/-- C20: when the namespace listing succeeds and no scan that is made returns an
error, processNamespaces returns a nil error and, in listing order, one
ResourceInfo with the name and the reason unused namespace for each listed
namespace that the filter chain does not exclude and on which the scanner, on the
cluster as it is during that scan, returns (false, nil); the scanner is called on
the namespaces the chain does not exclude and on no other. -/
theorem processNamespaces_reports_unused (fs : NamespaceFilters) (clientset : Clientset)
    (dyn : DynamicClient) (filterOpts : Options) (namespaces : List Namespace)
    (hlist : clientset.ListNamespaces filterOpts.IncludeLabels = .ok namespaces)
    (hnoerr : ∀ n ∈ namespaces,
      ApplyFilters n filterOpts
          [fs.SystemNamespaceFilter, fs.ExcludeNamespacesFilter, fs.IncludeNamespacesFilter,
            fs.KorLabelFilter, fs.LabelFilter, fs.AgeFilter] = false →
        (isErrorOrNamespaceContainsResources (clientset.duringScan n.Name) dyn n.Name
          filterOpts).2 = none) :
    (processNamespaces fs clientset dyn filterOpts).err = none
      ∧ (processNamespaces fs clientset dyn filterOpts).unused
          = (namespaces.filter (fun n =>
                !ApplyFilters n filterOpts
                    [fs.SystemNamespaceFilter, fs.ExcludeNamespacesFilter,
                      fs.IncludeNamespacesFilter, fs.KorLabelFilter, fs.LabelFilter,
                      fs.AgeFilter]
                  && decide (isErrorOrNamespaceContainsResources
                      (clientset.duringScan n.Name) dyn n.Name filterOpts
                        = (false, none)))).map
              (fun n => { Name := n.Name, Reason := "unused namespace" })
      ∧ (processNamespaces fs clientset dyn filterOpts).scanned
          = (namespaces.filter (fun n =>
                !ApplyFilters n filterOpts
                    [fs.SystemNamespaceFilter, fs.ExcludeNamespacesFilter,
                      fs.IncludeNamespacesFilter, fs.KorLabelFilter, fs.LabelFilter,
                      fs.AgeFilter])).map (fun n => n.Name) := by
  have h := processNamespacesLoop_of_no_error fs clientset dyn filterOpts namespaces hnoerr []
  refine ⟨?_, ?_, ?_⟩ <;> simp [processNamespaces, hlist, h, namespaceFilterChain]

theorem processNamespaces_reports_unused_witness :
    fixtureClientset.ListNamespaces ({} : Options).IncludeLabels = .ok fixtureNamespaces
      ∧ (∀ n ∈ fixtureNamespaces,
          ApplyFilters n {}
              [fixtureFilters.SystemNamespaceFilter, fixtureFilters.ExcludeNamespacesFilter,
                fixtureFilters.IncludeNamespacesFilter, fixtureFilters.KorLabelFilter,
                fixtureFilters.LabelFilter, fixtureFilters.AgeFilter] = false →
            (isErrorOrNamespaceContainsResources (fixtureClientset.duringScan n.Name)
              oneDeploymentClient n.Name {}).2 = none)
      ∧ (processNamespaces fixtureFilters fixtureClientset oneDeploymentClient {}).err = none
      ∧ (processNamespaces fixtureFilters fixtureClientset oneDeploymentClient {}).unused
          = (fixtureNamespaces.filter (fun n =>
                !ApplyFilters n {}
                    [fixtureFilters.SystemNamespaceFilter,
                      fixtureFilters.ExcludeNamespacesFilter,
                      fixtureFilters.IncludeNamespacesFilter, fixtureFilters.KorLabelFilter,
                      fixtureFilters.LabelFilter, fixtureFilters.AgeFilter]
                  && decide (isErrorOrNamespaceContainsResources
                      (fixtureClientset.duringScan n.Name) oneDeploymentClient n.Name {}
                        = (false, none)))).map
              (fun n => { Name := n.Name, Reason := "unused namespace" })
      ∧ (processNamespaces fixtureFilters fixtureClientset oneDeploymentClient {}).scanned
          = (fixtureNamespaces.filter (fun n =>
                !ApplyFilters n {}
                    [fixtureFilters.SystemNamespaceFilter,
                      fixtureFilters.ExcludeNamespacesFilter,
                      fixtureFilters.IncludeNamespacesFilter, fixtureFilters.KorLabelFilter,
                      fixtureFilters.LabelFilter, fixtureFilters.AgeFilter])).map
              (fun n => n.Name) :=
  ⟨rfl, by decide,
    processNamespaces_reports_unused fixtureFilters fixtureClientset oneDeploymentClient {}
      fixtureNamespaces rfl (by decide)⟩

/-! ## GetUnusedNamespaces: lemmas -/

/-- With both sets given, the call does what it does on the options with the
exclude-set already cleared, after one more line on standard error. -/
theorem GetUnusedNamespaces_of_both (rep : Reporting) (fs : NamespaceFilters) (o : Options)
    (clientset : Clientset) (dyn : DynamicClient) (outputFormat : String) (opts : Opts)
    (hboth : o.IncludeNamespaces ≠ [] ∧ o.ExcludeNamespaces ≠ []) :
    GetUnusedNamespaces rep fs o clientset dyn outputFormat opts
      = { GetUnusedNamespaces rep fs { o with ExcludeNamespaces := [] } clientset dyn
            outputFormat opts with
          log := .excludeIgnored
            :: (GetUnusedNamespaces rep fs { o with ExcludeNamespaces := [] } clientset dyn
                outputFormat opts).log } := by
  have hb : decide (o.IncludeNamespaces.length > 0 ∧ o.ExcludeNamespaces.length > 0) = true := by
    simp [List.length_pos, hboth.1, hboth.2]
  simp only [GetUnusedNamespaces, hb]
  simp only [List.length_nil, gt_iff_lt, lt_self_iff_false, and_false, decide_False,
    Bool.false_eq_true, if_false, if_true]
  cases processed_err : (processNamespaces fs clientset dyn
      { o with ExcludeNamespaces := [] }).err <;>
    cases opts.DeleteFlag <;>
    rcases rep.DeleteResource (processNamespaces fs clientset dyn
      { o with ExcludeNamespaces := [] }).unused clientset "" "Namespace" opts.NoInteractive
      with ⟨deleted, _ | derr⟩ <;>
    simp only [] <;>
    split <;> (try split) <;> simp_all

/-- With at most one of the two sets given, the options are passed on as they
came. -/
theorem GetUnusedNamespaces_of_not_both (rep : Reporting) (fs : NamespaceFilters)
    (o : Options) (clientset : Clientset) (dyn : DynamicClient) (outputFormat : String)
    (opts : Opts) (hone : o.IncludeNamespaces = [] ∨ o.ExcludeNamespaces = []) :
    (GetUnusedNamespaces rep fs o clientset dyn outputFormat opts).filterOpts = o
      ∧ (GetUnusedNamespaces rep fs o clientset dyn outputFormat opts).processed
          = processNamespaces fs clientset dyn o := by
  have hb : decide (o.IncludeNamespaces.length > 0 ∧ o.ExcludeNamespaces.length > 0) = false := by
    rcases hone with h | h <;> simp [h]
  simp only [GetUnusedNamespaces, hb, Bool.false_eq_true, if_false]
  split <;> (try split) <;> simp_all

/-! ## GetUnusedNamespaces: specification statements -/

/-- C18: GetUnusedNamespaces resolves the include/exclude ambiguity in favour of
include. For options o1 with both sets non-empty: on return ExcludeNamespaces is
empty, IncludeNamespaces and every other field are as on entry,
processNamespaces has run on the options so cleared, and result, error and
printed lines are those of the call on the cleared options, with one more line on
standard error in front: no error comes of the ambiguity. For options o2 with at
most one set non-empty: the options are unchanged and processNamespaces has run
on them. -/
theorem GetUnusedNamespaces_include_wins (rep : Reporting) (fs : NamespaceFilters)
    (clientset : Clientset) (dyn : DynamicClient) (outputFormat : String) (opts : Opts)
    (o1 o2 : Options)
    (hboth : o1.IncludeNamespaces ≠ [] ∧ o1.ExcludeNamespaces ≠ [])
    (hone : o2.IncludeNamespaces = [] ∨ o2.ExcludeNamespaces = []) :
    (GetUnusedNamespaces rep fs o1 clientset dyn outputFormat opts).filterOpts.ExcludeNamespaces
        = []
      ∧ (GetUnusedNamespaces rep fs o1 clientset dyn outputFormat opts).filterOpts.IncludeNamespaces
        = o1.IncludeNamespaces
      ∧ (GetUnusedNamespaces rep fs o1 clientset dyn outputFormat opts).filterOpts
        = { o1 with ExcludeNamespaces := [] }
      ∧ (GetUnusedNamespaces rep fs o1 clientset dyn outputFormat opts).processed
        = processNamespaces fs clientset dyn { o1 with ExcludeNamespaces := [] }
      ∧ (GetUnusedNamespaces rep fs o1 clientset dyn outputFormat opts).output
        = (GetUnusedNamespaces rep fs { o1 with ExcludeNamespaces := [] } clientset dyn
            outputFormat opts).output
      ∧ (GetUnusedNamespaces rep fs o1 clientset dyn outputFormat opts).err
        = (GetUnusedNamespaces rep fs { o1 with ExcludeNamespaces := [] } clientset dyn
            outputFormat opts).err
      ∧ (GetUnusedNamespaces rep fs o1 clientset dyn outputFormat opts).log
        = .excludeIgnored
            :: (GetUnusedNamespaces rep fs { o1 with ExcludeNamespaces := [] } clientset dyn
                outputFormat opts).log
      ∧ (GetUnusedNamespaces rep fs o2 clientset dyn outputFormat opts).filterOpts = o2
      ∧ (GetUnusedNamespaces rep fs o2 clientset dyn outputFormat opts).processed
        = processNamespaces fs clientset dyn o2 := by
  have h1 := GetUnusedNamespaces_of_both rep fs o1 clientset dyn outputFormat opts hboth
  have hc := GetUnusedNamespaces_of_not_both rep fs { o1 with ExcludeNamespaces := [] }
    clientset dyn outputFormat opts (Or.inr rfl)
  have h2 := GetUnusedNamespaces_of_not_both rep fs o2 clientset dyn outputFormat opts hone
  rw [h1]
  refine ⟨?_, ?_, ?_, ?_, ?_, ?_, ?_, h2.1, h2.2⟩ <;> simp [hc.1, hc.2]

theorem GetUnusedNamespaces_include_wins_witness :
    (ambiguousOptions.IncludeNamespaces ≠ [] ∧ ambiguousOptions.ExcludeNamespaces ≠ [])
      ∧ (includeOnlyOptions.IncludeNamespaces = [] ∨ includeOnlyOptions.ExcludeNamespaces = [])
      ∧ (GetUnusedNamespaces fixtureReporting fixtureFilters ambiguousOptions fixtureClientset
          oneDeploymentClient "table" {}).filterOpts.ExcludeNamespaces = []
      ∧ (GetUnusedNamespaces fixtureReporting fixtureFilters ambiguousOptions fixtureClientset
          oneDeploymentClient "table" {}).filterOpts.IncludeNamespaces
        = ambiguousOptions.IncludeNamespaces
      ∧ (GetUnusedNamespaces fixtureReporting fixtureFilters ambiguousOptions fixtureClientset
          oneDeploymentClient "table" {}).filterOpts
        = { ambiguousOptions with ExcludeNamespaces := [] }
      ∧ (GetUnusedNamespaces fixtureReporting fixtureFilters ambiguousOptions fixtureClientset
          oneDeploymentClient "table" {}).processed
        = processNamespaces fixtureFilters fixtureClientset oneDeploymentClient
            { ambiguousOptions with ExcludeNamespaces := [] }
      ∧ (GetUnusedNamespaces fixtureReporting fixtureFilters ambiguousOptions fixtureClientset
          oneDeploymentClient "table" {}).output
        = (GetUnusedNamespaces fixtureReporting fixtureFilters
            { ambiguousOptions with ExcludeNamespaces := [] } fixtureClientset
            oneDeploymentClient "table" {}).output
      ∧ (GetUnusedNamespaces fixtureReporting fixtureFilters ambiguousOptions fixtureClientset
          oneDeploymentClient "table" {}).err
        = (GetUnusedNamespaces fixtureReporting fixtureFilters
            { ambiguousOptions with ExcludeNamespaces := [] } fixtureClientset
            oneDeploymentClient "table" {}).err
      ∧ (GetUnusedNamespaces fixtureReporting fixtureFilters ambiguousOptions fixtureClientset
          oneDeploymentClient "table" {}).log
        = .excludeIgnored
            :: (GetUnusedNamespaces fixtureReporting fixtureFilters
                { ambiguousOptions with ExcludeNamespaces := [] } fixtureClientset
                oneDeploymentClient "table" {}).log
      ∧ (GetUnusedNamespaces fixtureReporting fixtureFilters includeOnlyOptions
          fixtureClientset oneDeploymentClient "table" {}).filterOpts = includeOnlyOptions
      ∧ (GetUnusedNamespaces fixtureReporting fixtureFilters includeOnlyOptions
          fixtureClientset oneDeploymentClient "table" {}).processed
        = processNamespaces fixtureFilters fixtureClientset oneDeploymentClient
            includeOnlyOptions :=
  ⟨by decide, by decide,
    GetUnusedNamespaces_include_wins fixtureReporting fixtureFilters fixtureClientset
      oneDeploymentClient "table" {} ambiguousOptions includeOnlyOptions
      (by decide) (by decide)⟩

/-! ## processNamespaces on a scan error: lemmas -/

/-- Namespaces whose scans, where made, return no error are passed; the loop
goes on with what they added to the slice. -/
theorem processNamespacesLoop_append (fs : NamespaceFilters) (clientset : Clientset)
    (dyn : DynamicClient) (o : Options) (pre rest : List Namespace)
    (hpre : ∀ m ∈ pre, ApplyFilters m o (namespaceFilterChain fs) = false →
      (isErrorOrNamespaceContainsResources (clientset.duringScan m.Name) dyn m.Name o).2
        = none)
    (acc : List ResourceInfo) :
    processNamespacesLoop fs clientset dyn o (pre ++ rest) acc
      = { unused := (processNamespacesLoop fs clientset dyn o rest
              (acc ++ (pre.filter (fun m =>
                !ApplyFilters m o (namespaceFilterChain fs)
                  && decide (isErrorOrNamespaceContainsResources (clientset.duringScan m.Name)
                      dyn m.Name o = (false, none)))).map
                (fun m => { Name := m.Name, Reason := "unused namespace" }))).unused
          err := (processNamespacesLoop fs clientset dyn o rest
              (acc ++ (pre.filter (fun m =>
                !ApplyFilters m o (namespaceFilterChain fs)
                  && decide (isErrorOrNamespaceContainsResources (clientset.duringScan m.Name)
                      dyn m.Name o = (false, none)))).map
                (fun m => { Name := m.Name, Reason := "unused namespace" }))).err
          scanned := (pre.filter (fun m =>
                !ApplyFilters m o (namespaceFilterChain fs))).map (fun m => m.Name)
              ++ (processNamespacesLoop fs clientset dyn o rest
              (acc ++ (pre.filter (fun m =>
                !ApplyFilters m o (namespaceFilterChain fs)
                  && decide (isErrorOrNamespaceContainsResources (clientset.duringScan m.Name)
                      dyn m.Name o = (false, none)))).map
                (fun m => { Name := m.Name, Reason := "unused namespace" }))).scanned } := by
  induction pre generalizing acc with
  | nil => simp
  | cons n pre ih =>
    have ih2 := ih (fun m hm => hpre m (List.mem_cons_of_mem _ hm))
    rw [List.cons_append]
    simp only [processNamespacesLoop]
    by_cases hx : ApplyFilters n o (namespaceFilterChain fs) = true
    · simp [hx, ih2]
    · have hx2 : ApplyFilters n o (namespaceFilterChain fs) = false := by simpa using hx
      have he := hpre n (List.mem_cons_self _ _) hx2
      rcases hscan : isErrorOrNamespaceContainsResources (clientset.duringScan n.Name) dyn
        n.Name o with ⟨b, e⟩
      rw [hscan] at he
      simp only at he
      subst he
      cases b <;> simp [hx2, hscan, ih2]

/-- The loop at a namespace that is scanned and whose scan returns an error. -/
theorem processNamespacesLoop_cons_error (fs : NamespaceFilters) (clientset : Clientset)
    (dyn : DynamicClient) (o : Options) (n : Namespace) (post : List Namespace) (e : Error)
    (hn : ApplyFilters n o (namespaceFilterChain fs) = false)
    (he : (isErrorOrNamespaceContainsResources (clientset.duringScan n.Name) dyn n.Name o).2
      = some e)
    (acc : List ResourceInfo) :
    processNamespacesLoop fs clientset dyn o (n :: post) acc
      = { unused := acc, err := some e, scanned := [n.Name] } := by
  simp only [processNamespacesLoop]
  rcases hscan : isErrorOrNamespaceContainsResources (clientset.duringScan n.Name) dyn
    n.Name o with ⟨b, e2⟩
  rw [hscan] at he
  simp only at he
  subst he
  simp [hn]

/-! ## processNamespaces on a scan error: specification statement -/

/-- C21: processNamespaces stops at the first namespace whose scan returns an
error. With the listing pre, then n, then post, the scans made on pre returning
no error and the scan of n returning the error e: the error returned is e, the
list returned holds the unused namespaces found among pre and so neither n nor a
namespace of post, and the scanner has been called on the namespaces of pre that
the chain does not exclude and last on n, on no namespace of post. -/
theorem processNamespaces_stops_at_first_error (fs : NamespaceFilters)
    (clientset : Clientset) (dyn : DynamicClient) (filterOpts : Options)
    (pre post : List Namespace) (n : Namespace) (e : Error)
    (hlist : clientset.ListNamespaces filterOpts.IncludeLabels = .ok (pre ++ n :: post))
    (hpre : ∀ m ∈ pre,
      ApplyFilters m filterOpts
          [fs.SystemNamespaceFilter, fs.ExcludeNamespacesFilter, fs.IncludeNamespacesFilter,
            fs.KorLabelFilter, fs.LabelFilter, fs.AgeFilter] = false →
        (isErrorOrNamespaceContainsResources (clientset.duringScan m.Name) dyn m.Name
          filterOpts).2 = none)
    (hn : ApplyFilters n filterOpts
        [fs.SystemNamespaceFilter, fs.ExcludeNamespacesFilter, fs.IncludeNamespacesFilter,
          fs.KorLabelFilter, fs.LabelFilter, fs.AgeFilter] = false)
    (he : (isErrorOrNamespaceContainsResources (clientset.duringScan n.Name) dyn n.Name
        filterOpts).2 = some e) :
    (processNamespaces fs clientset dyn filterOpts).err = some e
      ∧ (processNamespaces fs clientset dyn filterOpts).unused
          = (pre.filter (fun m =>
                !ApplyFilters m filterOpts
                    [fs.SystemNamespaceFilter, fs.ExcludeNamespacesFilter,
                      fs.IncludeNamespacesFilter, fs.KorLabelFilter, fs.LabelFilter,
                      fs.AgeFilter]
                  && decide (isErrorOrNamespaceContainsResources
                      (clientset.duringScan m.Name) dyn m.Name filterOpts
                        = (false, none)))).map
              (fun m => { Name := m.Name, Reason := "unused namespace" })
      ∧ (processNamespaces fs clientset dyn filterOpts).scanned
          = (pre.filter (fun m =>
                !ApplyFilters m filterOpts
                    [fs.SystemNamespaceFilter, fs.ExcludeNamespacesFilter,
                      fs.IncludeNamespacesFilter, fs.KorLabelFilter, fs.LabelFilter,
                      fs.AgeFilter])).map (fun m => m.Name)
            ++ [n.Name] := by
  have h1 := processNamespacesLoop_append fs clientset dyn filterOpts pre (n :: post) hpre []
  have h2 := fun acc =>
    processNamespacesLoop_cons_error fs clientset dyn filterOpts n post e hn he acc
  refine ⟨?_, ?_, ?_⟩ <;> simp [processNamespaces, hlist, h1, h2, namespaceFilterChain]

theorem processNamespaces_stops_at_first_error_witness :
    changingClientset.ListNamespaces ({} : Options).IncludeLabels
        = .ok ([{ Name := "default" }, { Name := "empty-namespace" }]
            ++ { Name := "late-namespace" } :: [{ Name := "test-namespace" }])
      ∧ (∀ m ∈ [({ Name := "default" } : Namespace), { Name := "empty-namespace" }],
          ApplyFilters m {}
              [fixtureFilters.SystemNamespaceFilter, fixtureFilters.ExcludeNamespacesFilter,
                fixtureFilters.IncludeNamespacesFilter, fixtureFilters.KorLabelFilter,
                fixtureFilters.LabelFilter, fixtureFilters.AgeFilter] = false →
            (isErrorOrNamespaceContainsResources (changingClientset.duringScan m.Name)
              oneDeploymentClient m.Name {}).2 = none)
      ∧ ApplyFilters ({ Name := "late-namespace" } : Namespace) {}
          [fixtureFilters.SystemNamespaceFilter, fixtureFilters.ExcludeNamespacesFilter,
            fixtureFilters.IncludeNamespacesFilter, fixtureFilters.KorLabelFilter,
            fixtureFilters.LabelFilter, fixtureFilters.AgeFilter] = false
      ∧ (isErrorOrNamespaceContainsResources (changingClientset.duringScan "late-namespace")
          oneDeploymentClient "late-namespace" {}).2 = some ⟨"fake error from discovery"⟩
      ∧ (processNamespaces fixtureFilters changingClientset oneDeploymentClient {}).err
          = some ⟨"fake error from discovery"⟩
      ∧ (processNamespaces fixtureFilters changingClientset oneDeploymentClient {}).unused
          = ([({ Name := "default" } : Namespace), { Name := "empty-namespace" }].filter
              (fun m =>
                !ApplyFilters m {}
                    [fixtureFilters.SystemNamespaceFilter,
                      fixtureFilters.ExcludeNamespacesFilter,
                      fixtureFilters.IncludeNamespacesFilter, fixtureFilters.KorLabelFilter,
                      fixtureFilters.LabelFilter, fixtureFilters.AgeFilter]
                  && decide (isErrorOrNamespaceContainsResources
                      (changingClientset.duringScan m.Name) oneDeploymentClient m.Name {}
                        = (false, none)))).map
              (fun m => { Name := m.Name, Reason := "unused namespace" })
      ∧ (processNamespaces fixtureFilters changingClientset oneDeploymentClient {}).scanned
          = ([({ Name := "default" } : Namespace), { Name := "empty-namespace" }].filter
              (fun m =>
                !ApplyFilters m {}
                    [fixtureFilters.SystemNamespaceFilter,
                      fixtureFilters.ExcludeNamespacesFilter,
                      fixtureFilters.IncludeNamespacesFilter, fixtureFilters.KorLabelFilter,
                      fixtureFilters.LabelFilter, fixtureFilters.AgeFilter])).map
              (fun m => m.Name)
            ++ ["late-namespace"] :=
  ⟨rfl, by decide, by decide, by decide,
    processNamespaces_stops_at_first_error fixtureFilters changingClientset
      oneDeploymentClient {} [{ Name := "default" }, { Name := "empty-namespace" }]
      [{ Name := "test-namespace" }] { Name := "late-namespace" }
      ⟨"fake error from discovery"⟩ rfl (by decide) (by decide) (by decide)⟩

/-! ## The split of the group-version string: lemma and specification statement -/

theorem resolveKind_err_iff (k : String × APIResource) :
    (resolveKind k).2 ≠ none ↔ 2 ≤ slashCount k.1 := by
  unfold resolveKind
  rw [Option.ne_none_iff_isSome, getGVR_err_isSome_iff, stringsSplit_length]
  omega

/-- C22: the slice the scanner passes to getGVR is strings.Split(GroupVersion, "/"),
which has at least one element, so the zero-length case of getGVR is not reached;
getGVR fails on it if and only if the GroupVersion string holds two or more '/';
the empty GroupVersion resolves to empty group and empty version without error;
and a scan of one reported kind returns an error if and only if its GroupVersion
holds two or more '/'. -/
theorem getGVR_of_split_fails_iff_two_slashes (name groupVersion : String)
    (apiResource : APIResource) (dyn : DynamicClient) (ns : String) (filterOpts : Options) :
    1 ≤ (stringsSplit groupVersion '/').length
      ∧ ((getGVR name (stringsSplit groupVersion '/')).2 ≠ none ↔ 2 ≤ slashCount groupVersion)
      ∧ getGVR name (stringsSplit "" '/')
          = (some { Group := "", Version := "", Resource := name }, none)
      ∧ ((isErrorOrNamespaceContainsResources
            { Discovery :=
                { ServerPreferredNamespacedResources :=
                    .ok [{ GroupVersion := groupVersion, APIResources := [apiResource] }] } }
            dyn ns filterOpts).2 ≠ none
          ↔ 2 ≤ slashCount groupVersion) := by
  refine ⟨?_, ?_, rfl, ?_⟩
  · rw [stringsSplit_length]
    omega
  · exact resolveKind_err_iff (groupVersion, { Name := name, Namespaced := true, Kind := "" })
  · have hrun := runScan_ok
      { Discovery :=
          { ServerPreferredNamespacedResources :=
              .ok [{ GroupVersion := groupVersion, APIResources := [apiResource] }] } }
      dyn ns filterOpts [{ GroupVersion := groupVersion, APIResources := [apiResource] }] rfl
    have hkinds : reportedKinds [{ GroupVersion := groupVersion, APIResources := [apiResource] }]
        = [(groupVersion, apiResource)] := rfl
    rw [hkinds] at hrun
    simp only [isErrorOrNamespaceContainsResources, hrun]
    rw [← resolveKind_err_iff (groupVersion, apiResource)]
    rcases resolveKind_cases (groupVersion, apiResource) with ⟨p, e, hk⟩ | ⟨gvr, hk⟩
    · rw [scanKinds_cons_abort dyn ns filterOpts _ [] p e hk, hk]
    · by_cases hs : kindHasSurvivor dyn ns filterOpts (groupVersion, apiResource)
      · rw [scanKinds_cons_survivor dyn ns filterOpts _ [] gvr hk hs, hk]
      · rw [scanKinds_cons_noSurvivor dyn ns filterOpts _ [] gvr hk hs, hk]
        simp [scanKinds]

/-! ## GetUnusedNamespaces on a processNamespaces failure: lemmas -/

/-- The returned error is the error of json.MarshalIndent, if any. -/
theorem GetUnusedNamespaces_err_iff (rep : Reporting) (fs : NamespaceFilters) (o : Options)
    (clientset : Clientset) (dyn : DynamicClient) (outputFormat : String) (opts : Opts)
    (e : Error) :
    (GetUnusedNamespaces rep fs o clientset dyn outputFormat opts).err = some e
      ↔ (outputFormat = "json" ∨ outputFormat = "yaml")
        ∧ rep.MarshalIndent (namespaceResources
            (GetUnusedNamespaces rep fs o clientset dyn outputFormat opts).processed.unused)
          = .error e := by
  simp only [GetUnusedNamespaces, namespaceResources]
  generalize processNamespaces fs clientset dyn _ = P
  by_cases ht : outputFormat = "table"
  · subst ht
    simp
    split <;> simp
  · by_cases hj : outputFormat = "json" ∨ outputFormat = "yaml"
    · simp only [ht, hj, if_true, if_false]
      cases hm : rep.MarshalIndent
          (if P.unused.length > 0 then [("", [("Namespaces", P.unused)])] else []) with
      | error e2 => simp [hm]
      | ok js =>
        simp only [hm]
        split <;> simp_all
    · simp only [ht, hj, if_false]
      split <;> simp_all

/-- The run of processNamespaces is the one on the options as the call leaves
them. -/
theorem GetUnusedNamespaces_processed_eq (rep : Reporting) (fs : NamespaceFilters)
    (o : Options) (clientset : Clientset) (dyn : DynamicClient) (outputFormat : String)
    (opts : Opts) :
    (GetUnusedNamespaces rep fs o clientset dyn outputFormat opts).processed
      = processNamespaces fs clientset dyn
          (if decide (o.IncludeNamespaces.length > 0 ∧ o.ExcludeNamespaces.length > 0) = true
            then { o with ExcludeNamespaces := [] } else o) := by
  simp only [GetUnusedNamespaces]
  split <;> (try split) <;> rfl

/-- The returned string is what unusedResourceFormatter makes of the rendering of
the list of processNamespaces. -/
theorem GetUnusedNamespaces_output (rep : Reporting) (fs : NamespaceFilters) (o : Options)
    (clientset : Clientset) (dyn : DynamicClient) (outputFormat : String) (opts : Opts) :
    (outputFormat = "table" →
        (GetUnusedNamespaces rep fs o clientset dyn outputFormat opts).output
          = (rep.unusedResourceFormatter outputFormat
              (rep.FormatOutput (namespaceResources
                (GetUnusedNamespaces rep fs o clientset dyn outputFormat opts).processed.unused)
                opts)
              opts "").1)
      ∧ (∀ jsonResponse, (outputFormat = "json" ∨ outputFormat = "yaml") →
          rep.MarshalIndent (namespaceResources
              (GetUnusedNamespaces rep fs o clientset dyn outputFormat opts).processed.unused)
            = .ok jsonResponse →
          (GetUnusedNamespaces rep fs o clientset dyn outputFormat opts).output
            = (rep.unusedResourceFormatter outputFormat "" opts jsonResponse).1)
      ∧ (outputFormat ≠ "table" → ¬ (outputFormat = "json" ∨ outputFormat = "yaml") →
          (GetUnusedNamespaces rep fs o clientset dyn outputFormat opts).output
            = (rep.unusedResourceFormatter outputFormat "" opts "").1) := by
  rw [GetUnusedNamespaces_processed_eq]
  simp only [GetUnusedNamespaces, namespaceResources]
  generalize processNamespaces fs clientset dyn _ = P
  refine ⟨fun ht => ?_, fun js hj hm => ?_, fun ht hj => ?_⟩
  · subst ht
    simp
    split <;> simp_all
  · have ht : outputFormat ≠ "table" := by
      rcases hj with h | h <;> rw [h] <;> decide
    simp only [ht, hj, if_true, if_false, hm]
    split <;> simp_all
  · simp only [ht, hj, if_false]
    split <;> simp_all

/-- A failure of processNamespaces is printed. -/
theorem GetUnusedNamespaces_log_of_process_error (rep : Reporting) (fs : NamespaceFilters)
    (o : Options) (clientset : Clientset) (dyn : DynamicClient) (outputFormat : String)
    (opts : Opts) (e : Error)
    (hfail : (GetUnusedNamespaces rep fs o clientset dyn outputFormat opts).processed.err
      = some e) :
    LogLine.processFailed e
      ∈ (GetUnusedNamespaces rep fs o clientset dyn outputFormat opts).log := by
  rw [GetUnusedNamespaces_processed_eq] at hfail
  simp only [GetUnusedNamespaces]
  generalize processNamespaces fs clientset dyn _ = P at hfail ⊢
  simp only [hfail]
  split <;> (try split) <;> (try split) <;> (try split) <;> (try split) <;> simp_all

/-! ## GetUnusedNamespaces on a processNamespaces failure: specification statement -/

/-- C23: GetUnusedNamespaces does not propagate a failure of processNamespaces.
When processNamespaces returns the error e with its list so far: the failure is
printed; the error GetUnusedNamespaces returns is non-nil only as the error of
json.MarshalIndent for the formats json and yaml, and nil otherwise; and the
string it returns is what unusedResourceFormatter makes of the rendering of that
list, by FormatOutput for table and by json.MarshalIndent for json and yaml. -/
theorem GetUnusedNamespaces_does_not_propagate (rep : Reporting) (fs : NamespaceFilters)
    (o : Options) (clientset : Clientset) (dyn : DynamicClient) (outputFormat : String)
    (opts : Opts) (e : Error)
    (hfail : (GetUnusedNamespaces rep fs o clientset dyn outputFormat opts).processed.err
      = some e) :
    LogLine.processFailed e ∈ (GetUnusedNamespaces rep fs o clientset dyn outputFormat opts).log
      ∧ (∀ e2, (GetUnusedNamespaces rep fs o clientset dyn outputFormat opts).err = some e2
          ↔ (outputFormat = "json" ∨ outputFormat = "yaml")
            ∧ rep.MarshalIndent (namespaceResources
                (GetUnusedNamespaces rep fs o clientset dyn outputFormat opts).processed.unused)
              = .error e2)
      ∧ (outputFormat = "table" →
          (GetUnusedNamespaces rep fs o clientset dyn outputFormat opts).err = none
            ∧ (GetUnusedNamespaces rep fs o clientset dyn outputFormat opts).output
              = (rep.unusedResourceFormatter outputFormat
                  (rep.FormatOutput (namespaceResources
                    (GetUnusedNamespaces rep fs o clientset dyn outputFormat
                      opts).processed.unused) opts)
                  opts "").1)
      ∧ (∀ jsonResponse, (outputFormat = "json" ∨ outputFormat = "yaml") →
          rep.MarshalIndent (namespaceResources
              (GetUnusedNamespaces rep fs o clientset dyn outputFormat opts).processed.unused)
            = .ok jsonResponse →
          (GetUnusedNamespaces rep fs o clientset dyn outputFormat opts).err = none
            ∧ (GetUnusedNamespaces rep fs o clientset dyn outputFormat opts).output
              = (rep.unusedResourceFormatter outputFormat "" opts jsonResponse).1)
      ∧ (outputFormat ≠ "table" → ¬ (outputFormat = "json" ∨ outputFormat = "yaml") →
          (GetUnusedNamespaces rep fs o clientset dyn outputFormat opts).err = none
            ∧ (GetUnusedNamespaces rep fs o clientset dyn outputFormat opts).output
              = (rep.unusedResourceFormatter outputFormat "" opts "").1) := by
  have herr := GetUnusedNamespaces_err_iff rep fs o clientset dyn outputFormat opts
  have hout := GetUnusedNamespaces_output rep fs o clientset dyn outputFormat opts
  have hnone : ∀ (hno : ∀ e2, ¬ ((outputFormat = "json" ∨ outputFormat = "yaml")
      ∧ rep.MarshalIndent (namespaceResources
          (GetUnusedNamespaces rep fs o clientset dyn outputFormat opts).processed.unused)
        = .error e2)),
      (GetUnusedNamespaces rep fs o clientset dyn outputFormat opts).err = none := by
    intro hno
    cases hrun : (GetUnusedNamespaces rep fs o clientset dyn outputFormat opts).err with
    | none => rfl
    | some e2 => exact absurd ((herr e2).1 hrun) (hno e2)
  refine ⟨GetUnusedNamespaces_log_of_process_error rep fs o clientset dyn outputFormat opts e
    hfail, herr, fun ht => ⟨hnone ?_, hout.1 ht⟩, fun js hj hm => ⟨hnone ?_, hout.2.1 js hj hm⟩,
    fun ht hj => ⟨hnone ?_, hout.2.2 ht hj⟩⟩
  · rintro e2 ⟨h | h, _⟩ <;> rw [h] at ht <;> exact absurd ht (by decide)
  · rintro e2 ⟨_, h⟩
    rw [hm] at h
    cases h
  · rintro e2 ⟨h, _⟩
    exact hj h

theorem GetUnusedNamespaces_does_not_propagate_witness :
    (GetUnusedNamespaces fixtureReporting fixtureFilters {} changingClientset
        oneDeploymentClient "table" {}).processed.err = some ⟨"fake error from discovery"⟩
      ∧ (GetUnusedNamespaces fixtureReporting fixtureFilters {} changingClientset
          oneDeploymentClient "table" {}).processed.unused
        = [{ Name := "empty-namespace", Reason := "unused namespace" }]
      ∧ (GetUnusedNamespaces fixtureReporting fixtureFilters {} changingClientset
          oneDeploymentClient "table" {}).output = "empty-namespace"
      ∧ LogLine.processFailed ⟨"fake error from discovery"⟩
          ∈ (GetUnusedNamespaces fixtureReporting fixtureFilters {} changingClientset
              oneDeploymentClient "table" {}).log
      ∧ (∀ e2, (GetUnusedNamespaces fixtureReporting fixtureFilters {} changingClientset
              oneDeploymentClient "table" {}).err = some e2
          ↔ (("table" : String) = "json" ∨ ("table" : String) = "yaml")
            ∧ fixtureReporting.MarshalIndent (namespaceResources
                (GetUnusedNamespaces fixtureReporting fixtureFilters {} changingClientset
                  oneDeploymentClient "table" {}).processed.unused)
              = .error e2)
      ∧ (("table" : String) = "table" →
          (GetUnusedNamespaces fixtureReporting fixtureFilters {} changingClientset
              oneDeploymentClient "table" {}).err = none
            ∧ (GetUnusedNamespaces fixtureReporting fixtureFilters {} changingClientset
                oneDeploymentClient "table" {}).output
              = (fixtureReporting.unusedResourceFormatter "table"
                  (fixtureReporting.FormatOutput (namespaceResources
                    (GetUnusedNamespaces fixtureReporting fixtureFilters {} changingClientset
                      oneDeploymentClient "table" {}).processed.unused) {})
                  {} "").1)
      ∧ (∀ jsonResponse, (("table" : String) = "json" ∨ ("table" : String) = "yaml") →
          fixtureReporting.MarshalIndent (namespaceResources
              (GetUnusedNamespaces fixtureReporting fixtureFilters {} changingClientset
                oneDeploymentClient "table" {}).processed.unused)
            = .ok jsonResponse →
          (GetUnusedNamespaces fixtureReporting fixtureFilters {} changingClientset
              oneDeploymentClient "table" {}).err = none
            ∧ (GetUnusedNamespaces fixtureReporting fixtureFilters {} changingClientset
                oneDeploymentClient "table" {}).output
              = (fixtureReporting.unusedResourceFormatter "table" "" {} jsonResponse).1)
      ∧ (("table" : String) ≠ "table" →
          ¬ (("table" : String) = "json" ∨ ("table" : String) = "yaml") →
          (GetUnusedNamespaces fixtureReporting fixtureFilters {} changingClientset
              oneDeploymentClient "table" {}).err = none
            ∧ (GetUnusedNamespaces fixtureReporting fixtureFilters {} changingClientset
                oneDeploymentClient "table" {}).output
              = (fixtureReporting.unusedResourceFormatter "table" "" {} "").1) :=
  ⟨by decide, by decide, by decide,
    GetUnusedNamespaces_does_not_propagate fixtureReporting fixtureFilters {}
      changingClientset oneDeploymentClient "table" {} ⟨"fake error from discovery"⟩
      (by decide)⟩

/-! ## processNamespaceServices: lemma and specification statement -/

/-- The loop of processNamespaceServices when the configuration loads. -/
theorem processNamespaceServicesLoop_eq (env : ServicesEnv) (ns : String) (o : Options)
    (config : Config) (hcfg : env.unmarshalConfig env.servicesConfig = .ok config)
    (items : List Endpoints) (k : Nat) (acc : List String) :
    processNamespaceServicesLoop env ns o k items acc
      = (acc ++ ((items.enumFrom k).filter
            (fun p => endpointsReported env ns o config p.1 p.2)).map (fun p => p.2.Name),
          none) := by
  induction items generalizing k acc with
  | nil => simp [processNamespaceServicesLoop]
  | cons ep rest ih =>
    rw [List.enumFrom_cons, List.filter_cons]
    simp only [processNamespaceServicesLoop, hcfg, ih]
    by_cases h1 : env.filterRun k o = true
    · have hp : endpointsReported env ns o config k ep = false := by
        simp [endpointsReported, h1]
      simp [h1, hp]
    · by_cases h2 : env.isResourceException ep.Name ns config.ExceptionServices = true
      · have hp : endpointsReported env ns o config k ep = false := by
          simp [endpointsReported, h2]
        simp [h1, h2, hp]
      · by_cases h3 : mapIndex ep.Labels "kor/used" = "false"
        · have hp : endpointsReported env ns o config k ep = true := by
            simp [endpointsReported, h1, h2, h3]
          simp [h1, h2, h3, hp]
        · by_cases h4 : ep.Subsets.length = 0
          · have hp : endpointsReported env ns o config k ep = true := by
              simp [endpointsReported, h1, h2, h4]
            simp [h1, h2, h3, h4, hp]
          · have hp : endpointsReported env ns o config k ep = false := by
              simp [endpointsReported, h3, h4]
            simp [h1, h2, h3, h4, hp]

/-- C24: when the endpoints listing and the load of the exception configuration
succeed, processNamespaceServices returns a nil error and, in listing order, the
names of the endpoints objects that the filter run does not skip, that are no
service exceptions, and that carry the label kor/used with the value false or
have no subsets. The names returned are a sublist of the names listed, one at
most for each listed object, and an object with the label kor/used = false that
is neither skipped nor an exception is reported whatever its subsets. -/
theorem processNamespaceServices_reports (env : ServicesEnv) (clientset : Clientset)
    (ns : String) (filterOpts : Options) (items : List Endpoints) (config : Config)
    (hlist : clientset.ListEndpoints ns filterOpts.IncludeLabels = .ok items)
    (hcfg : env.unmarshalConfig env.servicesConfig = .ok config) :
    processNamespaceServices env clientset ns filterOpts
        = ((items.enum.filter (fun p =>
              !env.filterRun p.1 filterOpts
                && !env.isResourceException p.2.Name ns config.ExceptionServices
                && (decide (mapIndex p.2.Labels "kor/used" = "false")
                    || decide (p.2.Subsets.length = 0)))).map (fun p => p.2.Name),
            none)
      ∧ (processNamespaceServices env clientset ns filterOpts).1.Sublist
          (items.map (fun ep => ep.Name))
      ∧ (processNamespaceServices env clientset ns filterOpts).1.length ≤ items.length
      ∧ ∀ (k : Nat) (ep : Endpoints), items[k]? = some ep →
          env.filterRun k filterOpts = false →
          env.isResourceException ep.Name ns config.ExceptionServices = false →
          mapIndex ep.Labels "kor/used" = "false" →
          ep.Name ∈ (processNamespaceServices env clientset ns filterOpts).1 := by
  have hrun : processNamespaceServices env clientset ns filterOpts
      = ((items.enum.filter (fun p => endpointsReported env ns filterOpts config p.1 p.2)).map
          (fun p => p.2.Name), none) := by
    simp [processNamespaceServices, hlist,
      processNamespaceServicesLoop_eq env ns filterOpts config hcfg, List.enum]
  have hsub : ((items.enum.filter
      (fun p => endpointsReported env ns filterOpts config p.1 p.2)).map
        (fun p => p.2.Name)).Sublist (items.map (fun ep => ep.Name)) := by
    have h1 : (items.enum.filter
        (fun p => endpointsReported env ns filterOpts config p.1 p.2)).Sublist items.enum :=
      List.filter_sublist _
    have h2 := h1.map (fun p => p.2.Name)
    have h3 : items.enum.map (fun p => p.2.Name) = items.map (fun ep => ep.Name) := by
      conv_rhs => rw [← List.enum_map_snd items]
      rw [List.map_map]
      rfl
    rw [h3] at h2
    exact h2
  rw [hrun]
  refine ⟨rfl, hsub, ?_, ?_⟩
  · have := hsub.length_le
    simpa using this
  · intro k ep hk h1 h2 h3
    refine List.mem_map.2 ⟨(k, ep), List.mem_filter.2 ⟨?_, ?_⟩, rfl⟩
    · exact List.mk_mem_enum_iff_getElem?.2 hk
    · simp [endpointsReported, h1, h2, h3]

theorem processNamespaceServices_reports_witness :
    fixtureEndpointsClientset.ListEndpoints "default" ({} : Options).IncludeLabels
        = .ok fixtureEndpoints
      ∧ fixtureServicesEnv.unmarshalConfig fixtureServicesEnv.servicesConfig
        = .ok { ExceptionServices := [{ Namespace := "default", ResourceName := "kubernetes" }] }
      ∧ processNamespaceServices fixtureServicesEnv fixtureEndpointsClientset "default" {}
        = (["marked", "dangling"], none)
      ∧ processNamespaceServices fixtureServicesEnv fixtureEndpointsClientset "default" {}
        = ((fixtureEndpoints.enum.filter (fun p =>
              !fixtureServicesEnv.filterRun p.1 {}
                && !fixtureServicesEnv.isResourceException p.2.Name "default"
                    ({ ExceptionServices :=
                        [{ Namespace := "default", ResourceName := "kubernetes" }] }
                      : Config).ExceptionServices
                && (decide (mapIndex p.2.Labels "kor/used" = "false")
                    || decide (p.2.Subsets.length = 0)))).map (fun p => p.2.Name),
            none)
      ∧ (processNamespaceServices fixtureServicesEnv fixtureEndpointsClientset "default"
          {}).1.Sublist (fixtureEndpoints.map (fun ep => ep.Name))
      ∧ (processNamespaceServices fixtureServicesEnv fixtureEndpointsClientset "default"
          {}).1.length ≤ fixtureEndpoints.length
      ∧ ∀ (k : Nat) (ep : Endpoints), fixtureEndpoints[k]? = some ep →
          fixtureServicesEnv.filterRun k {} = false →
          fixtureServicesEnv.isResourceException ep.Name "default"
            ({ ExceptionServices := [{ Namespace := "default", ResourceName := "kubernetes" }] }
              : Config).ExceptionServices = false →
          mapIndex ep.Labels "kor/used" = "false" →
          ep.Name ∈ (processNamespaceServices fixtureServicesEnv fixtureEndpointsClientset
            "default" {}).1 :=
  ⟨rfl, rfl, by decide,
    processNamespaceServices_reports fixtureServicesEnv fixtureEndpointsClientset "default" {}
      fixtureEndpoints
      { ExceptionServices := [{ Namespace := "default", ResourceName := "kubernetes" }] }
      rfl rfl⟩

end Kor
